import Mathlib

/-!
Verification of the rompipe static binary retargeting engine.

This file gives a shallow embedding, in Lean 4, of the parts of the
repository that the specification's claims are about:

* `src/disassemble.py` — the pure-Python recursive-descent 6502
  disassembler (`disassemble_with_capstone`): the opcode table, the
  operand formatter `fmt_operand`, the boundary-clamped operand reads,
  the relative-branch target resolution and the `Function`-record
  bookkeeping for `JSR` targets.
* `src/translate_cpu.py` — the deterministic pre-processor
  (`normalize_ghidra_line`, `preprocess_line`, `preprocess_bank`), the
  hardware-wrapper tables, the branch-expansion rewrite with its shared
  skip-label counter, and the oracle gateway (`call_llm_translate`)
  with its validation gate, stub fallback and translation log.

Python strings are embedded as Lean `String`s; the relevant fragments
of Python's string library (`strip`, `split`, `replace`, `re.sub` for
the two concrete hex-literal patterns, the regex trigger searches,
`int(s, 16)`, decimal/hex formatting) are implemented character by
character below, with fuel arguments so that every definition is
structural and kernel-evaluable.  Machine integers are `Nat`/`Int`
(Python's integers are unbounded, so no wraparound is applied unless
the source applies it).
-/

/-! ## Character-level utilities (embedding of the Python string ops) -/

/-- Python's whitespace set for `str.strip` / `str.split(None)`
(ASCII subset: space, tab, newline, carriage return, vertical tab, form feed). -/
def isPySpace (ch : Char) : Bool :=
  ch = ' ' || ch = '\t' || ch = '\n' || ch = '\r' || ch = '\x0b' || ch = '\x0c'

/-- A hexadecimal digit, `[0-9A-Fa-f]`. -/
def isHexDigitCh (ch : Char) : Bool :=
  ch.isDigit || ('a' ≤ ch && ch ≤ 'f') || ('A' ≤ ch && ch ≤ 'F')

/-- A regex word character `\w` (ASCII: letters, digits, underscore). -/
def isWordCh (ch : Char) : Bool := ch.isAlphanum || ch = '_'

/-- Drop trailing characters satisfying `p` (Python `rstrip`). -/
def dropTrail (p : Char → Bool) (l : List Char) : List Char :=
  ((l.reverse).dropWhile p).reverse

/-- Python `s.strip()` on a character list. -/
def pyStripL (l : List Char) : List Char := dropTrail isPySpace (l.dropWhile isPySpace)

/-- Python `s.strip()`. -/
def pyStrip (s : String) : String := ⟨pyStripL s.data⟩

/-- Python `s.rstrip()`. -/
def pyRstrip (s : String) : String := ⟨dropTrail isPySpace s.data⟩

/-- Python `s.lstrip("$")`: drop all leading `'$'` characters. -/
def pyLstripDollar (s : String) : String := ⟨s.data.dropWhile (· = '$')⟩

/-- Python `s.rstrip(":")`: drop all trailing `':'` characters. -/
def pyRstripColon (s : String) : String := ⟨dropTrail (· = ':') s.data⟩

/-- Python `s.upper()` (ASCII). -/
def pyUpper (s : String) : String := ⟨s.data.map Char.toUpper⟩

/-- Python `s.lower()` (ASCII). -/
def pyLower (s : String) : String := ⟨s.data.map Char.toLower⟩

/-- Does the character list begin with the given pattern? -/
def listStartsWith : List Char → List Char → Bool
  | [], _ => true
  | _ :: _, [] => false
  | p :: ps, c :: cs => p = c && listStartsWith ps cs

/-- Does the string begin with the single character `ch`?
(Embeds Python `s.startswith(ch)` for one-character patterns.) -/
def startsWithCh (s : String) (ch : Char) : Bool :=
  match s.data with
  | [] => false
  | c :: _ => c = ch

/-- Is the last character of the list `ch`?
(Embeds Python `s.endswith(ch)` for one-character patterns.) -/
def lastCharIs (l : List Char) (ch : Char) : Bool :=
  match l.getLast? with
  | some c => c = ch
  | none => false

/-- Does the character `ch` occur in the string?
(Embeds Python `ch in s` for one-character needles.) -/
def containsCh (s : String) (ch : Char) : Bool := s.data.contains ch

/-- Characters strictly before the first occurrence of `sep`
(Python `s.split(sep)[0]` for a one-character separator). -/
def headSplit (l : List Char) (sep : Char) : List Char := l.takeWhile (· ≠ sep)

/-- Python `"".join` / repeated `+=` over a list of strings. -/
def strJoin : List String → String
  | [] => ""
  | s :: rest => s ++ strJoin rest

/-- Python `str.replace(pat, repl)` (all non-overlapping occurrences,
left to right), with fuel for structural recursion. -/
def replaceAllGo (pat repl : List Char) : ℕ → List Char → List Char
  | 0, l => l
  | fuel + 1, l =>
    if pat ≠ [] && listStartsWith pat l then
      repl ++ replaceAllGo pat repl fuel (l.drop pat.length)
    else
      match l with
      | [] => []
      | ch :: cs => ch :: replaceAllGo pat repl fuel cs

/-- Python `s.replace(pat, repl)`. -/
def replaceAll (s pat repl : String) : String :=
  ⟨replaceAllGo pat.data repl.data s.data.length s.data⟩

/-- Python `s.count(pat)` (non-overlapping occurrences). -/
def countSubGo (pat : List Char) : ℕ → List Char → ℕ
  | 0, _ => 0
  | fuel + 1, l =>
    if pat ≠ [] && listStartsWith pat l then
      1 + countSubGo pat fuel (l.drop pat.length)
    else
      match l with
      | [] => 0
      | _ :: cs => countSubGo pat fuel cs

/-- Python `s.count(pat)`. -/
def countSub (s pat : String) : ℕ := countSubGo pat.data s.data.length s.data

/-- Is `needle` a contiguous substring of `hay` (Python `needle in hay`)? -/
def containsSubGo (pat : List Char) : ℕ → List Char → Bool
  | 0, _ => false
  | fuel + 1, l =>
    if listStartsWith pat l then true
    else
      match l with
      | [] => false
      | _ :: cs => containsSubGo pat fuel cs

/-- Is `needle` a contiguous substring of `hay`? -/
def containsSub (hay needle : String) : Bool :=
  containsSubGo needle.data (hay.data.length + 1) hay.data

/-- Python `s.split(None, 2)`: split on whitespace runs, at most two
splits; leading whitespace of the remainder is dropped, trailing
whitespace of the remainder is kept. -/
def pySplitNone2 (s : String) : List String :=
  let l1 := s.data.dropWhile isPySpace
  if l1.isEmpty then []
  else
    let t1 := l1.takeWhile (fun ch => !isPySpace ch)
    let r1 := (l1.dropWhile (fun ch => !isPySpace ch)).dropWhile isPySpace
    if r1.isEmpty then [⟨t1⟩]
    else
      let t2 := r1.takeWhile (fun ch => !isPySpace ch)
      let r2 := (r1.dropWhile (fun ch => !isPySpace ch)).dropWhile isPySpace
      if r2.isEmpty then [⟨t1⟩, ⟨t2⟩] else [⟨t1⟩, ⟨t2⟩, ⟨r2⟩]

/-- Python `lines = s.splitlines(keepends=True)` restricted to the
`\n`, `\r\n` and `\r` line boundaries. -/
def splitLinesGo : ℕ → List Char → List Char → List String
  | 0, acc, rest => if acc.isEmpty && rest.isEmpty then [] else [⟨acc.reverse ++ rest⟩]
  | _ + 1, acc, [] => if acc.isEmpty then [] else [⟨acc.reverse⟩]
  | fuel + 1, acc, '\r' :: '\n' :: cs => (⟨acc.reverse ++ ['\r', '\n']⟩ : String) :: splitLinesGo fuel [] cs
  | fuel + 1, acc, '\n' :: cs => (⟨acc.reverse ++ ['\n']⟩ : String) :: splitLinesGo fuel [] cs
  | fuel + 1, acc, '\r' :: cs => (⟨acc.reverse ++ ['\r']⟩ : String) :: splitLinesGo fuel [] cs
  | fuel + 1, acc, ch :: cs => splitLinesGo fuel (ch :: acc) cs

/-- Python `s.splitlines(keepends=True)`. -/
def splitLinesKeepEnds (s : String) : List String :=
  splitLinesGo (s.data.length + 1) [] s.data

/-! ## Numeric parsing and formatting -/

/-- Value of one hexadecimal digit character. -/
def hexVal (ch : Char) : Option ℕ :=
  if ch.isDigit then some (ch.toNat - 48)
  else if 'a' ≤ ch && ch ≤ 'f' then some (ch.toNat - 87)
  else if 'A' ≤ ch && ch ≤ 'F' then some (ch.toNat - 55)
  else none

/-- Hex digit run after its first digit: digits with single underscores
allowed between digits (CPython's numeric-literal grammar for `int`). -/
def hexDigitsGo : ℕ → List Char → Option ℕ
  | acc, [] => some acc
  | acc, '_' :: ch :: rest =>
    match hexVal ch with
    | some v => hexDigitsGo (acc * 16 + v) rest
    | none => none
  | _, '_' :: [] => none
  | acc, ch :: rest =>
    match hexVal ch with
    | some v => hexDigitsGo (acc * 16 + v) rest
    | none => none

/-- A nonempty hex digit sequence (underscore-separated). -/
def parseHexBody : List Char → Option ℕ
  | [] => none
  | ch :: rest =>
    match hexVal ch with
    | some v => hexDigitsGo v rest
    | none => none

/-- Digits of `int(s, 16)` after the optional sign: optional `0x`/`0X`
base marker (with an optional single underscore after it). -/
def parseAfterSign : List Char → Option ℕ
  | '0' :: 'x' :: rest =>
    (match rest with
     | '_' :: r2 => parseHexBody r2
     | _ => parseHexBody rest)
  | '0' :: 'X' :: rest =>
    (match rest with
     | '_' :: r2 => parseHexBody r2
     | _ => parseHexBody rest)
  | l => parseHexBody l

/-- Python `int(s, 16)`: surrounding whitespace stripped, optional
sign, optional `0x` marker, hex digits; `none` models `ValueError`. -/
def pyIntHex (s : String) : Option ℤ :=
  let l := pyStripL s.data
  match l with
  | '+' :: rest => (parseAfterSign rest).map (fun n => (n : ℤ))
  | '-' :: rest => (parseAfterSign rest).map (fun n => -(n : ℤ))
  | rest => (parseAfterSign rest).map (fun n => (n : ℤ))

/-- Decimal digits of `n`, least significant first (`[]` for `0`). -/
def digitsRevGo : ℕ → ℕ → List ℕ
  | _, 0 => []
  | 0, _ + 1 => []
  | fuel + 1, n + 1 => ((n + 1) % 10) :: digitsRevGo fuel ((n + 1) / 10)

/-- Decimal digits of `n`, least significant first. -/
def digitsRev (n : ℕ) : List ℕ := digitsRevGo n n

/-- The character for a decimal digit. -/
def digitChar (d : ℕ) : Char := Char.ofNat (48 + d)

/-- Python `f"{n}"` for a natural number: decimal notation. -/
def natStr (n : ℕ) : String :=
  ⟨if n = 0 then ['0'] else ((digitsRev n).map digitChar).reverse⟩

/-- Hexadecimal digits of `n`, least significant first (`[]` for `0`). -/
def hexDigitsRevGo : ℕ → ℕ → List ℕ
  | _, 0 => []
  | 0, _ + 1 => []
  | fuel + 1, n + 1 => ((n + 1) % 16) :: hexDigitsRevGo fuel ((n + 1) / 16)

/-- The uppercase character for a hexadecimal digit. -/
def hexUC (d : ℕ) : Char := if d < 10 then Char.ofNat (48 + d) else Char.ofNat (55 + d)

/-- Uppercase hex digits of `n`, most significant first (`"0"` for `0`). -/
def hexCore (n : ℕ) : List Char :=
  if n = 0 then ['0'] else ((hexDigitsRevGo n n).map hexUC).reverse

/-- Left-pad a character list with `'0'` to length at least `w`
(Python `str.zfill` / zero-padded format width). -/
def padZero (w : ℕ) (l : List Char) : List Char :=
  List.replicate (w - l.length) '0' ++ l

/-- Python `f"{n:02X}"` for a natural number. -/
def hex2 (n : ℕ) : String := ⟨padZero 2 (hexCore n)⟩

/-- Python `f"{n:04X}"` for a natural number. -/
def hex4 (n : ℕ) : String := ⟨padZero 4 (hexCore n)⟩

/-- Python `f"{v:04X}"` for a possibly negative integer: a sign
followed by zero-padded digits, total width at least 4. -/
def hex4Z (v : ℤ) : String :=
  if v < 0 then ⟨'-' :: padZero 3 (hexCore v.natAbs)⟩ else ⟨padZero 4 (hexCore v.natAbs)⟩

/-- Python `str.zfill(2)` after `upper()`, applied to a captured hex
digit run (the replacement template of the two `re.sub` calls). -/
def zfill2Upper (ds : List Char) : List Char := padZero 2 (ds.map Char.toUpper)

/-! ## The two hex-literal rewrites of `normalize_ghidra_line`

`re.sub(r'#0x([0-9A-Fa-f]+)', lambda m: '#$' + m.group(1).upper().zfill(2), line)`
and
`re.sub(r'(?<![#\w])0x([0-9A-Fa-f]+)', lambda m: '$' + m.group(1).upper().zfill(2), line)`
as left-to-right scanners (Python `re.sub` replaces the leftmost
non-overlapping matches and continues scanning after each match). -/

/-- Scanner for the `#0x([0-9A-Fa-f]+)` substitution. -/
def subHashGo : ℕ → List Char → List Char
  | 0, l => l
  | fuel + 1, '#' :: '0' :: 'x' :: rest =>
    let ds := rest.takeWhile isHexDigitCh
    if ds.isEmpty then '#' :: subHashGo fuel ('0' :: 'x' :: rest)
    else '#' :: '$' :: (zfill2Upper ds ++ subHashGo fuel (rest.dropWhile isHexDigitCh))
  | fuel + 1, ch :: cs => ch :: subHashGo fuel cs
  | _ + 1, [] => []

/-- The `#0xNN → #$NN` substitution. -/
def subHashHex (s : String) : String := ⟨subHashGo (s.data.length + 1) s.data⟩

/-- Scanner for the `(?<![#\w])0x([0-9A-Fa-f]+)` substitution; the
first argument is the character preceding the scan position in the
input (the regex lookbehind inspects the original string). -/
def subPlainGo : ℕ → Option Char → List Char → List Char
  | 0, _, l => l
  | fuel + 1, prev, '0' :: 'x' :: rest =>
    let behindOk := match prev with
      | none => true
      | some p => !(p = '#' || isWordCh p)
    let ds := rest.takeWhile isHexDigitCh
    if behindOk && !ds.isEmpty then
      '$' :: (zfill2Upper ds ++ subPlainGo fuel (some (ds.getLastD 'x')) (rest.dropWhile isHexDigitCh))
    else '0' :: subPlainGo fuel (some '0') ('x' :: rest)
  | fuel + 1, _, ch :: cs => ch :: subPlainGo fuel (some ch) cs
  | _ + 1, _, [] => []

/-- The `0xNN → $NN` substitution (with the `(?<![#\w])` lookbehind). -/
def subPlainHex (s : String) : String := ⟨subPlainGo (s.data.length + 1) none s.data⟩

/-! ## The oracle trigger patterns (`LLM_TRIGGER_PATTERNS`) -/

/-- `re.search(r"\bJMP\s+\(", line, re.IGNORECASE)`: `JMP` (any case)
not preceded by a word character, then at least one whitespace
character, then `'('`. -/
def trigJmpIndirectGo : ℕ → Option Char → List Char → Bool
  | 0, _, _ => false
  | fuel + 1, prev, l =>
    match l with
    | [] => false
    | ch :: cs =>
      let boundary := match prev with
        | none => true
        | some p => !isWordCh p
      (boundary &&
        (match l with
         | j :: m :: p' :: rest =>
           j.toLower = 'j' && m.toLower = 'm' && p'.toLower = 'p' &&
           (match rest with
            | w :: _ =>
              isPySpace w &&
              (match (rest.dropWhile isPySpace) with
               | '(' :: _ => true
               | _ => false)
            | [] => false)
         | _ => false)) ||
      trigJmpIndirectGo fuel (some ch) cs

/-- `re.search(r";\s*self.modif", line, re.IGNORECASE)`. -/
def trigSelfModifGo : ℕ → List Char → Bool
  | 0, _ => false
  | fuel + 1, l =>
    match l with
    | [] => false
    | ch :: cs =>
      (ch = ';' &&
        (match (cs.dropWhile isPySpace) with
         | s' :: e :: l' :: f :: _dot :: m :: o :: d :: i :: f' :: _ =>
           s'.toLower = 's' && e.toLower = 'e' && l'.toLower = 'l' && f.toLower = 'f' &&
           m.toLower = 'm' && o.toLower = 'o' && d.toLower = 'd' && i.toLower = 'i' &&
           f'.toLower = 'f'
         | _ => false)) ||
      trigSelfModifGo fuel cs

/-- Does `bank` (any case) occur in the list? -/
def hasBankGo : ℕ → List Char → Bool
  | 0, _ => false
  | _ + 1, [] => false
  | fuel + 1, b :: cs =>
    (b.toLower = 'b' &&
      (match cs with
       | a :: n :: k :: _ => a.toLower = 'a' && n.toLower = 'n' && k.toLower = 'k'
       | _ => false)) ||
    hasBankGo fuel cs

/-- `re.search(r"\bJSR\b.*bank", line, re.IGNORECASE)`: a `JSR` word
(word boundaries on both sides) followed, anywhere later on the line,
by `bank` (any case). -/
def trigJsrBankGo : ℕ → Option Char → List Char → Bool
  | 0, _, _ => false
  | fuel + 1, prev, l =>
    match l with
    | [] => false
    | ch :: cs =>
      let boundary := match prev with
        | none => true
        | some p => !isWordCh p
      (boundary &&
        (match l with
         | j :: s :: r :: rest =>
           j.toLower = 'j' && s.toLower = 's' && r.toLower = 'r' &&
           (match rest with
            | c' :: _ => !isWordCh c'
            | [] => true) &&
           hasBankGo (rest.length + 1) rest
         | _ => false)) ||
      trigJsrBankGo fuel (some ch) cs

/-- `re.search(r"\$[89AB][0-9A-Fa-f]{3}:", line, re.IGNORECASE)`: a
`$`-prefixed four-hex-digit address beginning with 8, 9, A or B
(either case, because of `re.IGNORECASE`), followed by a colon. -/
def trigMapperLabelGo : ℕ → List Char → Bool
  | 0, _ => false
  | fuel + 1, l =>
    match l with
    | [] => false
    | ch :: cs =>
      (ch = '$' &&
        (match cs with
         | c1 :: c2 :: c3 :: c4 :: ':' :: _ =>
           (c1 = '8' || c1 = '9' || c1 = 'A' || c1 = 'B' || c1 = 'a' || c1 = 'b') &&
           isHexDigitCh c2 && isHexDigitCh c3 && isHexDigitCh c4
         | _ => false)) ||
      trigMapperLabelGo fuel cs

/-- `any(p.search(line) for p in LLM_TRIGGER_PATTERNS)`. -/
def anyTriggerMatch (line : String) : Bool :=
  trigJmpIndirectGo (line.data.length + 1) none line.data ||
  trigSelfModifGo (line.data.length + 1) line.data ||
  trigJsrBankGo (line.data.length + 1) none line.data ||
  trigMapperLabelGo (line.data.length + 1) line.data

/-! ## `translate_cpu.py`: tables and the deterministic pre-processor -/

/-- `HW_WRITE_WRAPPERS`: hardware register address → write-wrapper symbol. -/
def HW_WRITE_WRAPPERS : List (String × String) :=
  [("$2000", "PPU_CTRL_WRITE"), ("$2001", "PPU_MASK_WRITE"), ("$2003", "OAM_ADDR_WRITE"),
   ("$2004", "OAM_DATA_WRITE"), ("$2005", "PPU_SCROLL_WRITE"), ("$2006", "PPU_ADDR_WRITE"),
   ("$2007", "PPU_DATA_WRITE"), ("$4014", "OAM_DMA_TRIGGER"), ("$4000", "APU_SQ1_VOL"),
   ("$4001", "APU_SQ1_SWEEP"), ("$4002", "APU_SQ1_LO"), ("$4003", "APU_SQ1_HI"),
   ("$4004", "APU_SQ2_VOL"), ("$4005", "APU_SQ2_SWEEP"), ("$4006", "APU_SQ2_LO"),
   ("$4007", "APU_SQ2_HI"), ("$4008", "APU_TRI_LINEAR"), ("$400a", "APU_TRI_LO"),
   ("$400b", "APU_TRI_HI"), ("$400c", "APU_NOISE_VOL"), ("$400e", "APU_NOISE_LO"),
   ("$400f", "APU_NOISE_HI"), ("$4010", "APU_DMC_FREQ"), ("$4011", "APU_DMC_RAW"),
   ("$4012", "APU_DMC_START"), ("$4013", "APU_DMC_LEN"), ("$4015", "APU_STATUS_WRITE"),
   ("$4017", "APU_FRAME_CNT")]

/-- `HW_READ_WRAPPERS`: hardware register address → read-wrapper symbol. -/
def HW_READ_WRAPPERS : List (String × String) :=
  [("$2002", "PPU_STATUS_READ"), ("$2007", "PPU_DATA_READ"), ("$4015", "APU_STATUS_READ"),
   ("$4016", "JOYPAD1_READ"), ("$4017", "JOYPAD2_READ")]

/-- `STORE_MNEMONICS`. -/
def STORE_MNEMONICS : List String := ["STA", "STX", "STY", "STZ"]

/-- `LOAD_MNEMONICS`. -/
def LOAD_MNEMONICS : List String := ["LDA", "LDX", "LDY", "BIT"]

/-- `BRANCH_MNEMONICS`. -/
def BRANCH_MNEMONICS : List String := ["BCC", "BCS", "BEQ", "BNE", "BPL", "BMI", "BVC", "BVS"]

/-- `BRANCH_INVERT`: each conditional branch and its logical inverse. -/
def BRANCH_INVERT : List (String × String) :=
  [("BCC", "BCS"), ("BCS", "BCC"),
   ("BEQ", "BNE"), ("BNE", "BEQ"),
   ("BPL", "BMI"), ("BMI", "BPL"),
   ("BVC", "BVS"), ("BVS", "BVC")]

/-- `BRANCH_INVERT[mnem]` (total lookup; only applied to branch mnemonics). -/
def branchInvert (mnem : String) : String := (BRANCH_INVERT.lookup mnem).getD ""

/-- `RESET_PREAMBLE_65816`, the 65816 initialization block injected
after the RESET handler label. -/
def RESET_PREAMBLE_65816 : String :=
  "    ; === 65816 initialization — injected by translate_cpu.py ===\n    SEI                 ; disable interrupts\n    CLC\n    XCE                 ; switch CPU to 65816 native mode\n    REP #$30            ; A/X/Y = 16-bit\n    LDX #$01FF\n    TXS                 ; set stack pointer\n    REP #$20            ; A = 16-bit\n    LDA #$0000\n    TCD                 ; Direct Page register = $0000 (Zero Page compat)\n    SEP #$30            ; back to 8-bit A/X/Y for NES code compatibility\n    ; === end 65816 init ===\n"

/-- `normalize_ghidra_line`: strip `<UNSUPPORTED>` tags, strip trailing
whitespace, convert `#0xNN` and `0xNN` hex literals to `$` syntax. -/
def normalize_ghidra_line (line : String) : String :=
  let l1 := pyRstrip (replaceAll line "<UNSUPPORTED>" "")
  subPlainHex (subHashHex l1)

/-- The fresh branch-skip label `f"_brl_{n}"`. -/
def mkSkip (n : ℕ) : String := "_brl_" ++ natStr n

/-- Leading whitespace of the line, `line[: len(line) - len(line.lstrip())]`. -/
def leadingWS (s : String) : String := ⟨s.data.takeWhile isPySpace⟩

/-- `preprocess_line(line, reset_vec, skip_counter)`: the deterministic
pre-processor for one line.  Returns the transformed line, the
`needs_llm` flag, the updated skip counter, and the list of skip
labels minted by this call (the `skip_lbl` values generated in the
branch-expansion case). -/
def preprocess_line (line0 : String) (reset_vec : ℕ) (c : ℕ) :
    String × Bool × ℕ × List String :=
  let line := normalize_ghidra_line line0
  let stripped := pyStrip line
  if stripped = "" || startsWithCh stripped ';' then (line, false, c, [])
  else
    match pySplitNone2 stripped with
    | [] => (line, false, c, [])
    | p0 :: rest =>
      if lastCharIs p0.data ':' then
        let label_name := pyRstripColon p0
        if label_name = "RESET" || label_name = "RESET_HANDLER" then
          (line ++ "\n" ++ RESET_PREAMBLE_65816, false, c, [])
        else
          match pyIntHex (pyLstripDollar label_name) with
          | some addr =>
            if addr = (reset_vec : ℤ) then (line ++ "\n" ++ RESET_PREAMBLE_65816, false, c, [])
            else (line, false, c, [])
          | none => (line, false, c, [])
      else
        let mnem := pyUpper p0
        let op := rest.headD ""
        let op_lower := pyStrip ⟨headSplit (pyLower op).data ','⟩
        let indent := leadingWS line
        if mnem ∈ BRANCH_MNEMONICS then
          let target := pyStrip ⟨headSplit op.data ';'⟩
          let inverted := branchInvert mnem
          let skip_lbl := mkSkip c
          (indent ++ inverted ++ " " ++ skip_lbl ++ "    ; was: " ++ mnem ++ " " ++ target
             ++ "\n" ++ indent ++ "JMP " ++ target ++ "\n" ++ skip_lbl ++ ":",
           false, c + 1, [skip_lbl])
        else if mnem ∈ STORE_MNEMONICS ∧ (HW_WRITE_WRAPPERS.lookup op_lower).isSome then
          (indent ++ "JSR " ++ (HW_WRITE_WRAPPERS.lookup op_lower).getD ""
             ++ "    ; was: " ++ mnem ++ " " ++ op, false, c, [])
        else if mnem ∈ LOAD_MNEMONICS ∧ (HW_READ_WRAPPERS.lookup op_lower).isSome then
          (indent ++ "JSR " ++ (HW_READ_WRAPPERS.lookup op_lower).getD ""
             ++ "    ; was: " ++ mnem ++ " " ++ op, false, c, [])
        else
          let needs1 := mnem = "JMP" && containsCh op '('
          let needs_llm := if mnem = "JSR" then anyTriggerMatch line else needs1
          (line, needs_llm, c, [])

/-- `preprocess_bank`'s loop over the lines of a bank file: transformed
lines, indices of lines flagged `needs_llm`, final counter, minted labels. -/
def preprocess_lines : List String → ℕ → ℕ → ℕ → List String × List ℕ × ℕ × List String
  | [], _, _, c => ([], [], c, [])
  | l :: rest, rv, i, c =>
    let r := preprocess_line l rv c
    let rs := preprocess_lines rest rv (i + 1) r.2.2.1
    (r.1 :: rs.1, (if r.2.1 then [i] else []) ++ rs.2.1, rs.2.2.1, r.2.2.2 ++ rs.2.2.2)

/-- `preprocess_bank(asm_text, reset_vec, skip_counter)`. -/
def preprocess_bank (asm_text : String) (reset_vec : ℕ) (c : ℕ) :
    String × List ℕ × ℕ × List String :=
  let r := preprocess_lines (splitLinesKeepEnds asm_text) reset_vec 0 c
  (strJoin r.1, r.2.1, r.2.2.1, r.2.2.2)

/-- The Pass-1 loop of `translate_banks` over all bank files, threading
the single `global_skip_counter` (initialized to 0) through the banks;
returns every skip label minted during the whole run. -/
def translate_run_go : List String → ℕ → ℕ → List String
  | [], _, _ => []
  | b :: bs, rv, c =>
    let r := preprocess_bank b rv c
    r.2.2.2 ++ translate_run_go bs rv r.2.2.1

/-- All skip labels generated across an entire translation run. -/
def translate_run_labels (banks : List String) (reset_vec : ℕ) : List String :=
  translate_run_go banks reset_vec 0

/-! ## Branch-condition semantics and block execution

The rewriter manipulates branch instructions purely textually; to state
the routing property of the expanded block a small execution model of a
straight-line instruction block is needed. -/

/-- The four 6502 condition flags relevant to conditional branches. -/
structure Flags where
  carry : Bool
  zero : Bool
  negative : Bool
  overflow : Bool
deriving DecidableEq

/-- Modelled from the spec: the condition under which each of the four
branch polarities (carry, zero, negative, overflow) is taken — `BCS`
branches when carry is set, `BCC` when it is clear, and likewise
`BEQ`/`BNE` for zero, `BMI`/`BPL` for negative, `BVS`/`BVC` for
overflow.  This source-platform semantics is not part of `src/`. -/
def branchTaken (m : String) (f : Flags) : Bool :=
  if m = "BCS" then f.carry
  else if m = "BCC" then !f.carry
  else if m = "BEQ" then f.zero
  else if m = "BNE" then !f.zero
  else if m = "BMI" then f.negative
  else if m = "BPL" then !f.negative
  else if m = "BVS" then f.overflow
  else if m = "BVC" then !f.overflow
  else false

/-- An instruction of the rewritten block: a conditional branch to a
local label, an unconditional `JMP` to an external target, or a label. -/
inductive BInstr where
  | cbr (m lbl : String)
  | jmp (t : String)
  | lab (name : String)
deriving DecidableEq

/-- Where control leaves the block: at an external target, or by
falling through past the end. -/
inductive CtrlExit where
  | target (t : String)
  | fallthrough'
deriving DecidableEq

/-- The instructions following the first occurrence of label `n`. -/
def afterLab (n : String) : List BInstr → List BInstr
  | [] => []
  | .lab m :: rest => if m = n then rest else afterLab n rest
  | _ :: rest => afterLab n rest

/-- Modelled from the spec: straight-line execution of a block under a
fixed flag state — a taken conditional branch transfers to its label
inside the block, `JMP` exits to its target, and running past the end
exits to the fallthrough.  `src/` contains no executable semantics. -/
def runBlockGo (prog : List BInstr) (f : Flags) : ℕ → List BInstr → CtrlExit
  | 0, _ => .fallthrough'
  | fuel + 1, rest =>
    match rest with
    | [] => .fallthrough'
    | .cbr m l :: rs =>
      if branchTaken m f then runBlockGo prog f fuel (afterLab l prog)
      else runBlockGo prog f fuel rs
    | .jmp t :: _ => .target t
    | .lab _ :: rs => runBlockGo prog f fuel rs

/-- Execute a block from its first instruction. -/
def runBlock (prog : List BInstr) (f : Flags) : CtrlExit :=
  runBlockGo prog f (prog.length + 1) prog

/-- The expanded 3-instruction block emitted for a conditional branch
`B target`: inverted branch to the fresh skip label, `JMP` to the
original target, then the skip label. -/
def expandedBlock (B target lbl : String) : List BInstr :=
  [.cbr (branchInvert B) lbl, .jmp target, .lab lbl]

/-! ## `call_llm_translate`: the oracle gateway -/

/-- Outcome of one oracle transport call: the returned text, or any
exception (transport error, API failure, timeout). -/
inductive OracleOutcome where
  | ok (text : String)
  | err
deriving DecidableEq

/-- One `TranslationLogEntry` produced per oracle invocation. -/
structure TransResult where
  addr : String
  name : String
  translated : String
  confidence : ℚ
  review_count : ℕ
deriving DecidableEq

/-- `re.sub(r"```\w*\n?", "", translated)`: strip markdown code fences. -/
def stripFencesGo : ℕ → List Char → List Char
  | 0, l => l
  | fuel + 1, '`' :: '`' :: '`' :: rest =>
    let r2 := rest.dropWhile isWordCh
    let r3 := match r2 with
      | '\n' :: t => t
      | _ => r2
    stripFencesGo fuel r3
  | fuel + 1, ch :: cs => ch :: stripFencesGo fuel cs
  | _ + 1, [] => []

/-- Fence stripping plus the trailing `.strip()`. -/
def stripFences (s : String) : String := pyStrip ⟨stripFencesGo (s.data.length + 1) s.data⟩

/-- Floor of a rational, computed directly from its normalized
numerator and denominator (kernel-evaluable). -/
def ratFloor (q : ℚ) : ℤ := q.num / (q.den : ℤ)

/-- Python `round(q, 2)` (round half to even at two decimal places),
on exact rationals. -/
def pyRound2 (q : ℚ) : ℚ :=
  let s := q * 100
  let fl : ℤ := ratFloor s
  let fr : ℚ := s - fl
  let r : ℤ :=
    if fr < 1 / 2 then fl
    else if 1 / 2 < fr then fl + 1
    else if fl % 2 = 0 then fl else fl + 1
  (r : ℚ) / 100

/-- The fallback stub body: the function's label, a trap instruction
(`BRK`), then a function return (`RTL`). -/
def stub_body (name : String) : String := name ++ "_65816:\n    BRK\n    RTL"

/-- The `.ifndef` duplicate-definition guard wrapped around every
emitted block. -/
def guard_wrap (name body : String) : String :=
  ".ifndef " ++ name ++ "_65816\n" ++ body ++ "\n.endif"

/-- The body of `call_llm_translate`'s loop for one function:
`validateOk` embeds `validate_asm_snippet` (the ca65 re-assembly
check), `hasW` whether a workspace was supplied, `outcome` the oracle
transport result. -/
def call_llm_translate_one (validateOk : String → Bool) (hasW : Bool)
    (addrStr name : String) (outcome : OracleOutcome) : TransResult :=
  match outcome with
  | .err =>
    { addr := addrStr, name := name,
      translated := guard_wrap name (stub_body name),
      confidence := pyRound2 0, review_count := 0 }
  | .ok text =>
    let t := stripFences text
    if hasW && !validateOk t then
      { addr := addrStr, name := name,
        translated := guard_wrap name (stub_body name),
        confidence := pyRound2 0, review_count := 0 }
    else
      let rc := countSub t "; REVIEW:"
      let conf : ℚ := max 0 (1 - rc * (1 / 10))
      { addr := addrStr, name := name,
        translated := guard_wrap name t,
        confidence := pyRound2 conf, review_count := rc }

/-- `call_llm_translate`: one result appended per function in the
batch; `oracle` maps a function name to its transport outcome. -/
def call_llm_translate (validateOk : String → Bool) (hasW : Bool)
    (oracle : String → OracleOutcome) (funcs : List (String × String)) : List TransResult :=
  funcs.map (fun f => call_llm_translate_one validateOk hasW f.1 f.2 (oracle f.2))

/-! ## The Pass-2 emission of `translate_banks` -/

/-- Python float `repr` for the confidence values arising here
(non-negative multiples of 1/100 up to 1): integer part, a dot, and
one or two fractional digits with a trailing zero dropped. -/
def confStr (q : ℚ) : String :=
  let cents : ℤ := ratFloor (q * 100)
  let ip : ℕ := (cents / 100).toNat
  let fp : ℕ := (cents % 100).toNat
  natStr ip ++ "." ++
    (if fp % 10 = 0 then natStr (fp / 10) else ⟨padZero 2 (natStr fp).data⟩)

/-- The per-result text appended to the LLM section: the translated
block, then a low-confidence warning when `confidence < 0.5`. -/
def llm_section_entries : List TransResult → String
  | [] => ""
  | r :: rs =>
    "\n" ++ r.translated ++ "\n" ++
    (if r.confidence < 1 / 2 then
      "; WARNING: low confidence (" ++ confStr r.confidence ++ ") — manual review needed\n"
     else "") ++
    llm_section_entries rs

/-- The `; ---- LLM-translated functions ----` section appended at the
end of a bank file. -/
def llm_section (rs : List TransResult) : String :=
  "\n; ---- LLM-translated functions ----\n" ++ llm_section_entries rs

/-- The per-bank body of `translate_banks`: Pass 1 (deterministic
pre-processing), then Pass 2 (oracle pass over the flagged function
set), producing the text written to `bank_NN_65816.asm`, the updated
skip counter, and this bank's translation-log entries.  `funcs` is
`functions.json` as `(addr_str, name)` pairs; `llmActive` is the
combined `use_llm and (client or backend == "ollama") and functions_data`
guard. -/
def translate_bank (asm_text : String) (reset_vec nmi_vec irq_vec : ℕ) (c : ℕ)
    (funcs : List (String × String)) (llmActive : Bool)
    (validateOk : String → Bool) (hasW : Bool) (oracle : String → OracleOutcome) :
    String × ℕ × List TransResult :=
  let p := preprocess_bank asm_text reset_vec c
  let transformed := p.1
  let llm_line_nums := p.2.1
  let c' := p.2.2.1
  if llmActive then
    let funcs_to_translate := funcs.filter (fun f =>
      decide (pyIntHex f.1 = some (nmi_vec : ℤ) ∨ pyIntHex f.1 = some (irq_vec : ℤ) ∨
        llm_line_nums ≠ []))
    if funcs_to_translate.isEmpty then (transformed, c', [])
    else
      let results := call_llm_translate validateOk hasW oracle funcs_to_translate
      (transformed ++ llm_section results, c', results)
  else (transformed, c', [])

/-! ## `disassemble.py`: the pure-Python 6502 disassembler -/

/-- The 6502 opcode table: opcode → (mnemonic, addressing mode,
instruction length). -/
def OPCODES : List (ℕ × String × String × ℕ) :=
  [(0x00, "BRK", "imp", 1), (0x01, "ORA", "izx", 2), (0x05, "ORA", "zp", 2), (0x06, "ASL", "zp", 2),
   (0x08, "PHP", "imp", 1), (0x09, "ORA", "imm", 2), (0x0A, "ASL", "acc", 1), (0x0D, "ORA", "abs", 3),
   (0x0E, "ASL", "abs", 3), (0x10, "BPL", "rel", 2), (0x11, "ORA", "izy", 2), (0x15, "ORA", "zpx", 2),
   (0x16, "ASL", "zpx", 2), (0x18, "CLC", "imp", 1), (0x19, "ORA", "aby", 3), (0x1D, "ORA", "abx", 3),
   (0x1E, "ASL", "abx", 3), (0x20, "JSR", "abs", 3), (0x21, "AND", "izx", 2), (0x24, "BIT", "zp", 2),
   (0x25, "AND", "zp", 2), (0x26, "ROL", "zp", 2), (0x28, "PLP", "imp", 1), (0x29, "AND", "imm", 2),
   (0x2A, "ROL", "acc", 1), (0x2C, "BIT", "abs", 3), (0x2D, "AND", "abs", 3), (0x2E, "ROL", "abs", 3),
   (0x30, "BMI", "rel", 2), (0x31, "AND", "izy", 2), (0x35, "AND", "zpx", 2), (0x36, "ROL", "zpx", 2),
   (0x38, "SEC", "imp", 1), (0x39, "AND", "aby", 3), (0x3D, "AND", "abx", 3), (0x3E, "ROL", "abx", 3),
   (0x40, "RTI", "imp", 1), (0x41, "EOR", "izx", 2), (0x45, "EOR", "zp", 2), (0x46, "LSR", "zp", 2),
   (0x48, "PHA", "imp", 1), (0x49, "EOR", "imm", 2), (0x4A, "LSR", "acc", 1), (0x4C, "JMP", "abs", 3),
   (0x4D, "EOR", "abs", 3), (0x4E, "LSR", "abs", 3), (0x50, "BVC", "rel", 2), (0x51, "EOR", "izy", 2),
   (0x55, "EOR", "zpx", 2), (0x56, "LSR", "zpx", 2), (0x58, "CLI", "imp", 1), (0x59, "EOR", "aby", 3),
   (0x5D, "EOR", "abx", 3), (0x5E, "LSR", "abx", 3), (0x60, "RTS", "imp", 1), (0x61, "ADC", "izx", 2),
   (0x65, "ADC", "zp", 2), (0x66, "ROR", "zp", 2), (0x68, "PLA", "imp", 1), (0x69, "ADC", "imm", 2),
   (0x6A, "ROR", "acc", 1), (0x6C, "JMP", "ind", 3), (0x6D, "ADC", "abs", 3), (0x6E, "ROR", "abs", 3),
   (0x70, "BVS", "rel", 2), (0x71, "ADC", "izy", 2), (0x75, "ADC", "zpx", 2), (0x76, "ROR", "zpx", 2),
   (0x78, "SEI", "imp", 1), (0x79, "ADC", "aby", 3), (0x7D, "ADC", "abx", 3), (0x7E, "ROR", "abx", 3),
   (0x81, "STA", "izx", 2), (0x84, "STY", "zp", 2), (0x85, "STA", "zp", 2), (0x86, "STX", "zp", 2),
   (0x88, "DEY", "imp", 1), (0x8A, "TXA", "imp", 1), (0x8C, "STY", "abs", 3), (0x8D, "STA", "abs", 3),
   (0x8E, "STX", "abs", 3), (0x90, "BCC", "rel", 2), (0x91, "STA", "izy", 2), (0x94, "STY", "zpx", 2),
   (0x95, "STA", "zpx", 2), (0x96, "STX", "zpy", 2), (0x98, "TYA", "imp", 1), (0x99, "STA", "aby", 3),
   (0x9A, "TXS", "imp", 1), (0x9D, "STA", "abx", 3), (0xA0, "LDY", "imm", 2), (0xA1, "LDA", "izx", 2),
   (0xA2, "LDX", "imm", 2), (0xA4, "LDY", "zp", 2), (0xA5, "LDA", "zp", 2), (0xA6, "LDX", "zp", 2),
   (0xA8, "TAY", "imp", 1), (0xA9, "LDA", "imm", 2), (0xAA, "TAX", "imp", 1), (0xAC, "LDY", "abs", 3),
   (0xAD, "LDA", "abs", 3), (0xAE, "LDX", "abs", 3), (0xB0, "BCS", "rel", 2), (0xB1, "LDA", "izy", 2),
   (0xB4, "LDY", "zpx", 2), (0xB5, "LDA", "zpx", 2), (0xB6, "LDX", "zpy", 2), (0xB8, "CLV", "imp", 1),
   (0xB9, "LDA", "aby", 3), (0xBA, "TSX", "imp", 1), (0xBC, "LDY", "abx", 3), (0xBD, "LDA", "abx", 3),
   (0xBE, "LDX", "aby", 3), (0xC0, "CPY", "imm", 2), (0xC1, "CMP", "izx", 2), (0xC4, "CPY", "zp", 2),
   (0xC5, "CMP", "zp", 2), (0xC6, "DEC", "zp", 2), (0xC8, "INY", "imp", 1), (0xC9, "CMP", "imm", 2),
   (0xCA, "DEX", "imp", 1), (0xCC, "CPY", "abs", 3), (0xCD, "CMP", "abs", 3), (0xCE, "DEC", "abs", 3),
   (0xD0, "BNE", "rel", 2), (0xD1, "CMP", "izy", 2), (0xD5, "CMP", "zpx", 2), (0xD6, "DEC", "zpx", 2),
   (0xD8, "CLD", "imp", 1), (0xD9, "CMP", "aby", 3), (0xDD, "CMP", "abx", 3), (0xDE, "DEC", "abx", 3),
   (0xE0, "CPX", "imm", 2), (0xE1, "SBC", "izx", 2), (0xE4, "CPX", "zp", 2), (0xE5, "SBC", "zp", 2),
   (0xE6, "INC", "zp", 2), (0xE8, "INX", "imp", 1), (0xE9, "SBC", "imm", 2), (0xEA, "NOP", "imp", 1),
   (0xEC, "CPX", "abs", 3), (0xED, "SBC", "abs", 3), (0xEE, "INC", "abs", 3), (0xF0, "BEQ", "rel", 2),
   (0xF1, "SBC", "izy", 2), (0xF5, "SBC", "zpx", 2), (0xF6, "INC", "zpx", 2), (0xF8, "SED", "imp", 1),
   (0xF9, "SBC", "aby", 3), (0xFD, "SBC", "abx", 3), (0xFE, "INC", "abx", 3)]

/-- `fmt_operand(mode, lo, hi, pc)`: the operand text the disassembler
prints.  In the `rel` case the source computes
`offset = lo if lo < 0x80 else lo - 0x256` and prints
`f"${pc + 2 + offset:04X}"`. -/
def fmt_operand (mode : String) (lo hi pc : ℕ) : String :=
  if mode = "imp" || mode = "acc" then ""
  else if mode = "imm" then "#$" ++ hex2 lo
  else if mode = "zp" then "$" ++ hex2 lo
  else if mode = "zpx" then "$" ++ hex2 lo ++ ",X"
  else if mode = "zpy" then "$" ++ hex2 lo ++ ",Y"
  else if mode = "abs" then "$" ++ hex2 hi ++ hex2 lo
  else if mode = "abx" then "$" ++ hex2 hi ++ hex2 lo ++ ",X"
  else if mode = "aby" then "$" ++ hex2 hi ++ hex2 lo ++ ",Y"
  else if mode = "ind" then "($" ++ hex2 hi ++ hex2 lo ++ ")"
  else if mode = "izx" then "($" ++ hex2 lo ++ ",X)"
  else if mode = "izy" then "($" ++ hex2 lo ++ "),Y"
  else if mode = "rel" then
    let offset : ℤ := if lo < 0x80 then (lo : ℤ) else (lo : ℤ) - 0x256
    "$" ++ hex4Z ((pc : ℤ) + 2 + offset)
  else ""

/-- The numeric address the `rel` case of `fmt_operand` prints. -/
def rel_target_printed (pc lo : ℕ) : ℤ :=
  (pc : ℤ) + 2 + (if lo < 0x80 then (lo : ℤ) else (lo : ℤ) - 0x256)

/-- The branch target the traversal enqueues
(`branch_offset = lo if lo < 0x80 else lo - 256`; `queue.append(addr + 2 + branch_offset)`). -/
def rel_target_queued (addr lo : ℕ) : ℤ :=
  (addr : ℤ) + 2 + (if lo < 0x80 then (lo : ℤ) else (lo : ℤ) - 256)

/-- Follows the spec's words: relative-branch target =
`pc + instruction_length + sign_extend(displacement)` with native
16-bit wraparound of the source platform. -/
def relTargetSpec (pc len d : ℕ) : ℕ :=
  (pc + len + (if d < 0x80 then d else d + 65536 - 256)) % 65536

/-- `abs_addr(mode, lo, hi)`: the resolved absolute / absolute-indexed
operand address. -/
def abs_addr (mode : String) (lo hi : ℕ) : Option ℕ :=
  if mode = "abs" then some (hi * 256 + lo)
  else if mode = "abx" then some (hi * 256 + lo)
  else if mode = "aby" then some (hi * 256 + lo)
  else none

/-- Result of one decode step of the traversal's inner loop: a boundary
or unknown-opcode stop (the loop `break`s, no error), or a decoded
instruction. -/
inductive StepOut where
  | stop
  | decoded (mnem mode : String) (len lo hi : ℕ) (opStr : String)
deriving DecidableEq

/-- The decode portion of the traversal's inner loop
(`disassemble_with_capstone`, the body from `offset = addr - base`
through `op_str = fmt_operand(...)`).  Every raw image read is a
`List.get?`; `none` models an out-of-bounds fault.  The source guards
each operand read with `offset + k < len(prg_data)` and substitutes 0
when the guard fails. -/
def decodeStep (prg : List ℕ) (base addr : ℕ) : Option StepOut :=
  let offset := addr - base
  if offset ≥ prg.length then some .stop
  else
    match prg.get? offset with
    | none => none
    | some opcode =>
      match OPCODES.lookup opcode with
      | none => some .stop
      | some (mnem, mode, len) =>
        let rdLo : Option ℕ :=
          if len > 1 ∧ offset + 1 < prg.length then prg.get? (offset + 1) else some 0
        let rdHi : Option ℕ :=
          if len > 2 ∧ offset + 2 < prg.length then prg.get? (offset + 2) else some 0
        match rdLo, rdHi with
        | some lo, some hi => some (.decoded mnem mode len lo hi (fmt_operand mode lo hi addr))
        | _, _ => none

/-- One `Function` record of `functions.json`. -/
structure FuncRec where
  name : String
  start : String
  callers : List String
  callees : List String
deriving DecidableEq

/-- `f"0x{n:04X}"`, the key format of the functions table. -/
def hexKey (n : ℕ) : String := "0x" ++ hex4 n

/-- Python `==` between an `int` and a `str`: always `False` (values of
different, non-numeric-kin types never compare equal). -/
def pyIntEqStr (_ : ℕ) (_ : String) : Bool := false

/-- Python `jsr_target in functions` where `jsr_target` is an `int` and
`functions` is keyed by `"0x%04X"` strings: the integer is compared
against each string key. -/
def dictHasIntKey (functions : List (String × FuncRec)) (t : ℕ) : Bool :=
  functions.any (fun kv => pyIntEqStr t kv.1)

/-- Python dict assignment `functions[key] = value`: overwrite in place
when the key is present, append otherwise (insertion order preserved). -/
def dictInsert (functions : List (String × FuncRec)) (k : String) (v : FuncRec) :
    List (String × FuncRec) :=
  match functions with
  | [] => [(k, v)]
  | (k', v') :: rest => if k' = k then (k, v) :: rest else (k', v') :: dictInsert rest k v

/-- The `JSR` case of the traversal (`disassemble_with_capstone`):
`if jsr_target and jsr_target not in functions:` — the membership test
compares the integer `jsr_target` against the dict's string keys —
then assigns a fresh record (new singleton caller) at the string key
`f"0x{jsr_target:04X}"` and appends the target to the work queue. -/
def jsrUpdate (functions : List (String × FuncRec)) (queue : List ℕ)
    (addr : ℕ) (jsr_target : Option ℕ) : List (String × FuncRec) × List ℕ :=
  match jsr_target with
  | none => (functions, queue)
  | some t =>
    if t ≠ 0 ∧ dictHasIntKey functions t = false then
      (dictInsert functions (hexKey t)
         { name := "sub_" ++ hex4 t, start := hexKey t,
           callers := [hexKey addr], callees := [] },
       queue ++ [t])
    else (functions, queue)

/-! ## Spec-side line classification

These definitions follow the spec's wording for the classes of line
that `preprocess_line` treats specially; the frame theorem compares
`preprocess_line` against them. -/

/-- Tokenization of a (normalized) line the way the pre-processor sees
it: `none` for blank and comment lines, otherwise the first token and
the remaining tokens of `split(None, 2)`. -/
def lineParts (n : String) : Option (String × List String) :=
  let stripped := pyStrip n
  if stripped = "" || startsWithCh stripped ';' then none
  else
    match pySplitNone2 stripped with
    | [] => none
    | p0 :: rest => some (p0, rest)

/-- The line is a conditional-branch instruction line. -/
def isBranchInstrLine (n : String) : Bool :=
  match lineParts n with
  | some (p0, _) => !lastCharIs p0.data ':' && pyUpper p0 ∈ BRANCH_MNEMONICS
  | none => false

/-- The line is a store/load instruction whose operand address is in
the corresponding hardware wrapper table. -/
def isHwInstrLine (n : String) : Bool :=
  match lineParts n with
  | some (p0, rest) =>
    !lastCharIs p0.data ':' &&
      ((pyUpper p0 ∈ STORE_MNEMONICS &&
          (HW_WRITE_WRAPPERS.lookup
            (pyStrip ⟨headSplit (pyLower (rest.headD "")).data ','⟩)).isSome) ||
       (pyUpper p0 ∈ LOAD_MNEMONICS &&
          (HW_READ_WRAPPERS.lookup
            (pyStrip ⟨headSplit (pyLower (rest.headD "")).data ','⟩)).isSome))
  | none => false

/-- The line is a label recognized as the reset entry (by name or by
numeric address equal to the reset vector). -/
def isResetLabelLine (n : String) (reset_vec : ℕ) : Bool :=
  match lineParts n with
  | some (p0, _) =>
    lastCharIs p0.data ':' &&
      (pyRstripColon p0 = "RESET" || pyRstripColon p0 = "RESET_HANDLER" ||
       pyIntHex (pyLstripDollar (pyRstripColon p0)) = some (reset_vec : ℤ))
  | none => false

/-- The line is an indirect-jump instruction (`JMP` with a
parenthesized operand). -/
def isIndirectJmpLine (n : String) : Bool :=
  match lineParts n with
  | some (p0, rest) =>
    !lastCharIs p0.data ':' && pyUpper p0 = "JMP" && containsCh (rest.headD "") '('
  | none => false

/-- The line is a `JSR` instruction matching one of the oracle trigger
patterns. -/
def isTriggerJsrLine (n : String) : Bool :=
  match lineParts n with
  | some (p0, _) => !lastCharIs p0.data ':' && pyUpper p0 = "JSR" && anyTriggerMatch n
  | none => false

/-! ## Theorems -/

/-- C2: the claim says the printed relative-branch target and the
enqueued traversal target both equal
`pc + instruction_length + sign_extend(d)` (mod 2^16).  The traversal
target does (`lo - 256`), but `fmt_operand` computes `lo - 0x256`
(i.e. `lo - 598`): at `pc = $8000` with displacement byte `$80` the
printed operand is `$7E2C` while the specified target (and the address
the same traversal enqueues two branches later) is `$7F82`.  This is
the code slip behind the `code_bug` verdict. -/
theorem c2_rel_target_printed_wrong :
    fmt_operand "rel" 0x80 0 0x8000 = "$7E2C" ∧
    rel_target_printed 0x8000 0x80 = 0x7E2C ∧
    rel_target_queued 0x8000 0x80 = 0x7F82 ∧
    relTargetSpec 0x8000 2 0x80 = 0x7F82 ∧
    fmt_operand "rel" 0x80 0 0x8000 ≠ "$" ++ hex4 (relTargetSpec 0x8000 2 0x80) := by
  refine ⟨by decide, by decide, by decide, by decide, by decide⟩

/-- C9: decoding at any in-range address never faults: the decode step
always returns a result (a boundary/unknown-opcode stop or a decoded
instruction, never an out-of-bounds read), and each operand byte of a
decoded instruction is the image byte when it exists and 0 when the
encoding extends past the image boundary. -/
theorem c9_decode_in_range_total :
    ∀ (prg : List ℕ) (base addr : ℕ), base ≤ addr → addr < base + prg.length →
    ∃ r, decodeStep prg base addr = some r ∧
      ∀ mnem mode len lo hi s, r = StepOut.decoded mnem mode len lo hi s →
        lo = (if len > 1 then (prg.get? (addr - base + 1)).getD 0 else 0) ∧
        hi = (if len > 2 then (prg.get? (addr - base + 2)).getD 0 else 0) := by
  intro prg base addr hb ha
  have hoff : addr - base < prg.length := by omega
  have hcond : ¬ (addr - base ≥ prg.length) := by omega
  rcases hget : prg.get? (addr - base) with _ | opcode
  · rw [List.get?_eq_none] at hget; omega
  · rcases hlook : OPCODES.lookup opcode with _ | ⟨mnem, mode, len⟩
    · refine ⟨.stop, ?_, by intro _ _ _ _ _ _ h; cases h⟩
      simp only [decodeStep, hget, hlook, if_neg hcond]
    · have hlo : (if len > 1 ∧ addr - base + 1 < prg.length
            then prg.get? (addr - base + 1) else some 0)
          = some (if len > 1 then (prg.get? (addr - base + 1)).getD 0 else 0) := by
        split
        · rename_i hc
          rw [if_pos hc.1]
          rcases hg : prg.get? (addr - base + 1) with _ | v
          · rw [List.get?_eq_none] at hg; omega
          · rfl
        · rename_i hc
          by_cases h1 : len > 1
          · have hn : prg.get? (addr - base + 1) = none := by
              rw [List.get?_eq_none]; omega
            rw [if_pos h1, hn]; rfl
          · rw [if_neg h1]
      have hhi : (if len > 2 ∧ addr - base + 2 < prg.length
            then prg.get? (addr - base + 2) else some 0)
          = some (if len > 2 then (prg.get? (addr - base + 2)).getD 0 else 0) := by
        split
        · rename_i hc
          rw [if_pos hc.1]
          rcases hg : prg.get? (addr - base + 2) with _ | v
          · rw [List.get?_eq_none] at hg; omega
          · rfl
        · rename_i hc
          by_cases h2 : len > 2
          · have hn : prg.get? (addr - base + 2) = none := by
              rw [List.get?_eq_none]; omega
            rw [if_pos h2, hn]; rfl
          · rw [if_neg h2]
      refine ⟨StepOut.decoded mnem mode len
          (if len > 1 then (prg.get? (addr - base + 1)).getD 0 else 0)
          (if len > 2 then (prg.get? (addr - base + 2)).getD 0 else 0)
          (fmt_operand mode (if len > 1 then (prg.get? (addr - base + 1)).getD 0 else 0)
            (if len > 2 then (prg.get? (addr - base + 2)).getD 0 else 0) addr), ?_, ?_⟩
      · simp only [decodeStep, hget, hlook, if_neg hcond, hlo, hhi]
      · intro mnem' mode' len' lo' hi' s' h
        cases h
        exact ⟨rfl, rfl⟩

/-- Witness for C9: a one-byte image whose only byte is the `LDA abs`
opcode; both operand bytes lie past the boundary and decode as 0. -/
theorem c9_decode_in_range_total_witness :
    ((0x8000 : ℕ) ≤ 0x8000 ∧ (0x8000 : ℕ) < 0x8000 + ([0xAD] : List ℕ).length) ∧
    ∃ r, decodeStep [0xAD] 0x8000 0x8000 = some r ∧
      ∀ mnem mode len lo hi s, r = StepOut.decoded mnem mode len lo hi s →
        lo = (if len > 1 then (([0xAD] : List ℕ).get? (0x8000 - 0x8000 + 1)).getD 0 else 0) ∧
        hi = (if len > 2 then (([0xAD] : List ℕ).get? (0x8000 - 0x8000 + 2)).getD 0 else 0) :=
  ⟨⟨by decide, by decide⟩, c9_decode_in_range_total [0xAD] 0x8000 0x8000 (by decide) (by decide)⟩


/-- `round(0.0, 2) = 0.0`: the literal confidence of every failure path. -/
theorem pyRound2_zero : pyRound2 0 = 0 := by
  norm_num [pyRound2, ratFloor]


/-- C7: on any failed oracle invocation — a transport error/exception,
or (with a workspace present) rejection of the returned text by the
re-assembly validation — the gateway emits the guard-wrapped
deterministic stub `stub_body name` (the function's label, a `BRK`
trap, then an `RTL` return) with confidence exactly 0; and every
invocation, success or failure, appends exactly one entry to the
translation log (`call_llm_translate` returns one result per function). -/
theorem c7_failure_stub_and_log :
    ∀ (validateOk : String → Bool) (hasW : Bool) (addrStr name : String)
      (outcome : OracleOutcome),
    ((outcome = OracleOutcome.err ∨
        (∃ t, outcome = OracleOutcome.ok t ∧ hasW = true ∧
          validateOk (stripFences t) = false)) →
      (call_llm_translate_one validateOk hasW addrStr name outcome).translated
          = guard_wrap name (stub_body name) ∧
      (call_llm_translate_one validateOk hasW addrStr name outcome).confidence = 0) ∧
    ∀ (oracle : String → OracleOutcome) (funcs : List (String × String)),
      (call_llm_translate validateOk hasW oracle funcs).length = funcs.length := by
  intro validateOk hasW addrStr name outcome
  constructor
  · intro hfail
    rcases hfail with rfl | ⟨t, rfl, rfl, hv⟩
    · exact ⟨rfl, pyRound2_zero⟩
    · have heq : call_llm_translate_one validateOk true addrStr name (OracleOutcome.ok t)
          = { addr := addrStr, name := name,
              translated := guard_wrap name (stub_body name),
              confidence := pyRound2 0, review_count := 0 } := by
        simp [call_llm_translate_one, hv]
      rw [heq]
      exact ⟨rfl, pyRound2_zero⟩
  · intro oracle funcs
    simp [call_llm_translate]


/-- Witness for C7: a validation-rejected oracle output yields the
stub entry, and a one-function batch logs exactly one entry. -/
theorem c7_failure_stub_and_log_witness :
    ((OracleOutcome.ok "???" = OracleOutcome.err ∨
        (∃ t, OracleOutcome.ok "???" = OracleOutcome.ok t ∧ (true : Bool) = true ∧
          (fun _ => false : String → Bool) (stripFences t) = false))) ∧
    ((call_llm_translate_one (fun _ => false) true "0x9000" "sub_9000"
        (OracleOutcome.ok "???")).translated = guard_wrap "sub_9000" (stub_body "sub_9000") ∧
     (call_llm_translate_one (fun _ => false) true "0x9000" "sub_9000"
        (OracleOutcome.ok "???")).confidence = 0) ∧
    (call_llm_translate (fun _ => false) true (fun _ => OracleOutcome.err)
        [("0x9000", "sub_9000")]).length = ([("0x9000", "sub_9000")] : List (String × String)).length :=
  ⟨Or.inr ⟨"???", rfl, rfl, rfl⟩,
   (c7_failure_stub_and_log (fun _ => false) true "0x9000" "sub_9000" (OracleOutcome.ok "???")).1
     (Or.inr ⟨"???", rfl, rfl, rfl⟩),
   (c7_failure_stub_and_log (fun _ => false) true "0x9000" "sub_9000" (OracleOutcome.ok "???")).2
     (fun _ => OracleOutcome.err) [("0x9000", "sub_9000")]⟩


/-- C8: the oracle trust boundary.  With a workspace present, the
emitted block for a function is either the validated, fence-stripped
oracle text (and only when the validator accepted exactly that text)
or the fixed stub with confidence 0; in particular whenever the
(possibly forced-to-fail) validation check rejects the oracle output,
the emitted block is the stub and never the unvalidated oracle text. -/
theorem c8_validation_gate :
    ∀ (validateOk : String → Bool) (addrStr name : String) (outcome : OracleOutcome),
    ((∃ t, outcome = OracleOutcome.ok t ∧ validateOk (stripFences t) = true ∧
        (call_llm_translate_one validateOk true addrStr name outcome).translated
          = guard_wrap name (stripFences t)) ∨
      ((call_llm_translate_one validateOk true addrStr name outcome).translated
          = guard_wrap name (stub_body name) ∧
       (call_llm_translate_one validateOk true addrStr name outcome).confidence = 0)) ∧
    (∀ t, outcome = OracleOutcome.ok t → validateOk (stripFences t) = false →
      (call_llm_translate_one validateOk true addrStr name outcome).translated
          = guard_wrap name (stub_body name) ∧
      (call_llm_translate_one validateOk true addrStr name outcome).confidence = 0) := by
  intro validateOk addrStr name outcome
  constructor
  · cases outcome with
    | err => exact Or.inr ⟨rfl, pyRound2_zero⟩
    | ok t =>
      by_cases hv : validateOk (stripFences t) = true
      · refine Or.inl ⟨t, rfl, hv, ?_⟩
        simp [call_llm_translate_one, hv]
      · have hv' : validateOk (stripFences t) = false := by
          cases h : validateOk (stripFences t)
          · rfl
          · exact absurd h hv
        have heq : call_llm_translate_one validateOk true addrStr name (OracleOutcome.ok t)
            = { addr := addrStr, name := name,
                translated := guard_wrap name (stub_body name),
                confidence := pyRound2 0, review_count := 0 } := by
          simp [call_llm_translate_one, hv']
        exact Or.inr (by rw [heq]; exact ⟨rfl, pyRound2_zero⟩)
  · intro t ht hv
    subst ht
    have heq : call_llm_translate_one validateOk true addrStr name (OracleOutcome.ok t)
        = { addr := addrStr, name := name,
            translated := guard_wrap name (stub_body name),
            confidence := pyRound2 0, review_count := 0 } := by
      simp [call_llm_translate_one, hv]
    rw [heq]
    exact ⟨rfl, pyRound2_zero⟩


/-- Witness for C8: a forced validation failure (`validateOk` constant
false) on concrete oracle text yields the stub block with confidence 0. -/
theorem c8_validation_gate_witness :
    ((∃ t, OracleOutcome.ok "BAD ASM" = OracleOutcome.ok t ∧
        (fun _ => false : String → Bool) (stripFences t) = true ∧
        (call_llm_translate_one (fun _ => false) true "0xA000" "nmi_handler"
          (OracleOutcome.ok "BAD ASM")).translated = guard_wrap "nmi_handler" (stripFences t)) ∨
      ((call_llm_translate_one (fun _ => false) true "0xA000" "nmi_handler"
          (OracleOutcome.ok "BAD ASM")).translated
         = guard_wrap "nmi_handler" (stub_body "nmi_handler") ∧
       (call_llm_translate_one (fun _ => false) true "0xA000" "nmi_handler"
          (OracleOutcome.ok "BAD ASM")).confidence = 0)) ∧
    ((call_llm_translate_one (fun _ => false) true "0xA000" "nmi_handler"
        (OracleOutcome.ok "BAD ASM")).translated
       = guard_wrap "nmi_handler" (stub_body "nmi_handler") ∧
     (call_llm_translate_one (fun _ => false) true "0xA000" "nmi_handler"
        (OracleOutcome.ok "BAD ASM")).confidence = 0) :=
  ⟨(c8_validation_gate (fun _ => false) "0xA000" "nmi_handler" (OracleOutcome.ok "BAD ASM")).1,
   (c8_validation_gate (fun _ => false) "0xA000" "nmi_handler" (OracleOutcome.ok "BAD ASM")).2
     "BAD ASM" rfl rfl⟩

/-! ### Decimal rendering is injective (skip labels never collide) -/

theorem digitsRevGo_eq : ∀ fuel n, n ≤ fuel → digitsRevGo fuel n = Nat.digits 10 n := by
  intro fuel
  induction fuel with
  | zero =>
    intro n hn
    interval_cases n
    simp [digitsRevGo]
  | succ fuel ih =>
    intro n hn
    cases n with
    | zero => simp [digitsRevGo]
    | succ m =>
      rw [digitsRevGo, Nat.digits_def' (by norm_num : (1:ℕ) < 10) (Nat.succ_pos m)]
      congr 1
      exact ih _ (by have := Nat.div_lt_self (Nat.succ_pos m) (by norm_num : (1:ℕ) < 10); omega)

theorem digitsRev_eq (n : ℕ) : digitsRev n = Nat.digits 10 n := digitsRevGo_eq n n le_rfl

theorem digitChar_inj (a b : ℕ) (ha : a < 10) (hb : b < 10) :
    digitChar a = digitChar b → a = b := by
  interval_cases a <;> interval_cases b <;> decide

theorem mapDigitChar_inj : ∀ (l1 l2 : List ℕ), (∀ x ∈ l1, x < 10) → (∀ x ∈ l2, x < 10) →
    l1.map digitChar = l2.map digitChar → l1 = l2 := by
  intro l1
  induction l1 with
  | nil => intro l2 _ _ h; cases l2 with
    | nil => rfl
    | cons b bs => simp at h
  | cons a as ih =>
    intro l2 h1 h2 h
    cases l2 with
    | nil => simp at h
    | cons b bs =>
      simp only [List.map_cons, List.cons.injEq] at h
      have hab := digitChar_inj a b (h1 a (by simp)) (h2 b (by simp)) h.1
      have := ih bs (fun x hx => h1 x (by simp [hx])) (fun x hx => h2 x (by simp [hx])) h.2
      rw [hab, this]

theorem natStr_nonzero_data (n : ℕ) (hn : n ≠ 0) :
    (natStr n).data = ((Nat.digits 10 n).map digitChar).reverse := by
  simp [natStr, hn, digitsRev_eq]

theorem natStr_inj : ∀ m n, natStr m = natStr n → m = n := by
  intro m n h
  have hd : (natStr m).data = (natStr n).data := by rw [h]
  by_cases hm : m = 0 <;> by_cases hn : n = 0
  · omega
  · exfalso
    rw [natStr_nonzero_data n hn] at hd
    have hd' : ((Nat.digits 10 n).map digitChar) = ['0'] := by
      have := congrArg List.reverse hd
      simpa [natStr, hm] using this.symm
    rcases hds : Nat.digits 10 n with _ | ⟨d, ds⟩
    · rw [hds] at hd'; simp at hd'
    · rw [hds] at hd'
      cases ds with
      | nil =>
        simp only [List.map_cons, List.map_nil, List.cons.injEq, and_true] at hd'
        have hdd : d = 0 := by
          have hdlt : d < 10 := Nat.digits_lt_base (by norm_num) (by rw [hds]; simp)
          exact digitChar_inj d 0 hdlt (by norm_num) (by simpa [digitChar] using hd')
        have := Nat.ofDigits_digits 10 n
        rw [hds, hdd] at this
        simp [Nat.ofDigits] at this
        exact hn this.symm
      | cons d2 ds2 => simp at hd'
  · exfalso
    rw [natStr_nonzero_data m hm] at hd
    have hd' : ((Nat.digits 10 m).map digitChar) = ['0'] := by
      have := congrArg List.reverse hd
      simpa [natStr, hn] using this
    rcases hds : Nat.digits 10 m with _ | ⟨d, ds⟩
    · rw [hds] at hd'; simp at hd'
    · rw [hds] at hd'
      cases ds with
      | nil =>
        simp only [List.map_cons, List.map_nil, List.cons.injEq, and_true] at hd'
        have hdd : d = 0 := by
          have hdlt : d < 10 := Nat.digits_lt_base (by norm_num) (by rw [hds]; simp)
          exact digitChar_inj d 0 hdlt (by norm_num) (by simpa [digitChar] using hd')
        have := Nat.ofDigits_digits 10 m
        rw [hds, hdd] at this
        simp [Nat.ofDigits] at this
        exact hm this.symm
      | cons d2 ds2 => simp at hd'
  · rw [natStr_nonzero_data m hm, natStr_nonzero_data n hn] at hd
    have := List.reverse_injective hd
    have hdig := mapDigitChar_inj _ _
      (fun x hx => Nat.digits_lt_base (by norm_num) hx)
      (fun x hx => Nat.digits_lt_base (by norm_num) hx) this
    exact Nat.digits.injective 10 hdig

theorem mkSkip_inj : Function.Injective mkSkip := by
  intro a b h
  have hd : (mkSkip a).data = (mkSkip b).data := by rw [h]
  simp only [mkSkip, String.data_append] at hd
  exact natStr_inj a b (String.ext (List.append_cancel_left hd))

theorem preprocess_line_labels (line : String) (rv c : ℕ) :
    ((preprocess_line line rv c).2.2.2 = [] ∧ (preprocess_line line rv c).2.2.1 = c) ∨
    ((preprocess_line line rv c).2.2.2 = [mkSkip c] ∧
      (preprocess_line line rv c).2.2.1 = c + 1) := by
  simp only [preprocess_line]
  repeat' split
  all_goals simp

theorem preprocess_lines_labels : ∀ (ls : List String) (rv i c : ℕ), ∃ k,
    (preprocess_lines ls rv i c).2.2.1 = c + k ∧
    (preprocess_lines ls rv i c).2.2.2 = (List.range' c k).map mkSkip := by
  intro ls
  induction ls with
  | nil => exact fun rv i c => ⟨0, rfl, rfl⟩
  | cons l rest ih =>
    intro rv i c
    rcases preprocess_line_labels l rv c with ⟨h1, h2⟩ | ⟨h1, h2⟩
    · obtain ⟨k, hk1, hk2⟩ := ih rv (i + 1) c
      refine ⟨k, ?_, ?_⟩
      · simp only [preprocess_lines, h2, hk1]
      · simp only [preprocess_lines, h1, h2, hk2, List.nil_append]
    · obtain ⟨k, hk1, hk2⟩ := ih rv (i + 1) (c + 1)
      refine ⟨k + 1, ?_, ?_⟩
      · simp only [preprocess_lines, h2, hk1]; omega
      · simp only [preprocess_lines, h1, h2, hk2]
        rw [List.range'_succ]
        simp

theorem preprocess_bank_labels (asm : String) (rv c : ℕ) : ∃ k,
    (preprocess_bank asm rv c).2.2.1 = c + k ∧
    (preprocess_bank asm rv c).2.2.2 = (List.range' c k).map mkSkip := by
  obtain ⟨k, h1, h2⟩ := preprocess_lines_labels (splitLinesKeepEnds asm) rv 0 c
  exact ⟨k, h1, h2⟩

theorem translate_run_go_labels : ∀ (banks : List String) (rv c : ℕ), ∃ k,
    translate_run_go banks rv c = (List.range' c k).map mkSkip := by
  intro banks
  induction banks with
  | nil => exact fun rv c => ⟨0, rfl⟩
  | cons b bs ih =>
    intro rv c
    obtain ⟨k1, hc, hl⟩ := preprocess_bank_labels b rv c
    obtain ⟨k2, hrest⟩ := ih rv ((preprocess_bank b rv c).2.2.1)
    rw [hc] at hrest
    refine ⟨k1 + k2, ?_⟩
    simp only [translate_run_go, hl, hc, hrest]
    rw [← List.map_append]
    congr 1
    have := List.range'_append c k1 k2 1
    simp [Nat.add_comm] at this
    simp [this, Nat.add_comm]

/-- C6: across one entire translation run spanning any list of banks,
every skip label minted by branch expansion is drawn from the single
counter threaded through the banks (starting at 0), so the full list
of generated `_brl_N` labels is pairwise distinct — no label is reused
within or between banks. -/
theorem c6_skip_labels_distinct (banks : List String) (reset_vec : ℕ) :
    (translate_run_labels banks reset_vec).Nodup := by
  obtain ⟨k, hk⟩ := translate_run_go_labels banks reset_vec 0
  unfold translate_run_labels
  rw [hk]
  exact (List.nodup_range' 0 k).map mkSkip_inj

/-- Executing `[Bcc skip, JMP target, skip:]` falls through exactly
when the (inverted) branch is taken. -/
theorem runBlock_cbr_jmp (m L T : String) (f : Flags) :
    runBlock [.cbr m L, .jmp T, .lab L] f
      = if branchTaken m f then CtrlExit.fallthrough' else CtrlExit.target T := by
  by_cases h : branchTaken m f = true
  · simp [runBlock, runBlockGo, afterLab, h]
  · simp [runBlock, runBlockGo, afterLab, h]

/-- The `BRANCH_INVERT` table really inverts the branch condition, for
all four polarities and all flag states. -/
theorem branchInvert_taken (B : String) (hB : B ∈ BRANCH_MNEMONICS) (f : Flags) :
    branchTaken (branchInvert B) f = !(branchTaken B f) := by
  rcases f with ⟨fc, fz, fn, fv⟩
  fin_cases hB <;> cases fc <;> cases fz <;> cases fn <;> cases fv <;> rfl

/-- C1: for every conditional-branch instruction line (first token a
branch mnemonic `B`, operand/target `T`), the rewriter emits exactly
the 3-line block `inverted-B fresh-skip-label` / `JMP T` /
`skip-label:` (consuming one fresh counter value), and executing that
block routes control to `T` when `B`'s condition holds and to the
fallthrough otherwise, for every flag state — hence for all four
branch polarities. -/
theorem c1_branch_expansion :
    ∀ (line : String) (rv c : ℕ) (p0 : String) (rest : List String),
    pyStrip (normalize_ghidra_line line) ≠ "" →
    startsWithCh (pyStrip (normalize_ghidra_line line)) ';' = false →
    pySplitNone2 (pyStrip (normalize_ghidra_line line)) = p0 :: rest →
    lastCharIs p0.data ':' = false →
    pyUpper p0 ∈ BRANCH_MNEMONICS →
    (preprocess_line line rv c =
      (leadingWS (normalize_ghidra_line line) ++ branchInvert (pyUpper p0) ++ " " ++ mkSkip c
         ++ "    ; was: " ++ pyUpper p0 ++ " "
         ++ pyStrip ⟨headSplit (rest.headD "").data ';'⟩ ++ "\n"
         ++ leadingWS (normalize_ghidra_line line) ++ "JMP "
         ++ pyStrip ⟨headSplit (rest.headD "").data ';'⟩ ++ "\n" ++ mkSkip c ++ ":",
       false, c + 1, [mkSkip c])) ∧
    (∀ f : Flags,
      runBlock (expandedBlock (pyUpper p0)
          (pyStrip ⟨headSplit (rest.headD "").data ';'⟩) (mkSkip c)) f
        = if branchTaken (pyUpper p0) f
            then CtrlExit.target (pyStrip ⟨headSplit (rest.headD "").data ';'⟩)
            else CtrlExit.fallthrough') := by
  intro line rv c p0 rest h1 h2 h3 h4 hB
  constructor
  · simp [preprocess_line, h1, h2, h3, h4, hB]
  · intro f
    unfold expandedBlock
    rw [runBlock_cbr_jmp, branchInvert_taken (pyUpper p0) hB]
    cases h : branchTaken (pyUpper p0) f <;> simp

/-- Witness for C1: the line `    BNE $8012` at counter 5. -/
theorem c1_branch_expansion_witness :
    (pyStrip (normalize_ghidra_line "    BNE $8012\n") ≠ "" ∧
     startsWithCh (pyStrip (normalize_ghidra_line "    BNE $8012\n")) ';' = false ∧
     pySplitNone2 (pyStrip (normalize_ghidra_line "    BNE $8012\n")) = "BNE" :: ["$8012"] ∧
     lastCharIs ("BNE" : String).data ':' = false ∧
     pyUpper "BNE" ∈ BRANCH_MNEMONICS) ∧
    ((preprocess_line "    BNE $8012\n" 0xC000 5 =
      (leadingWS (normalize_ghidra_line "    BNE $8012\n") ++ branchInvert (pyUpper "BNE")
         ++ " " ++ mkSkip 5 ++ "    ; was: " ++ pyUpper "BNE" ++ " "
         ++ pyStrip ⟨headSplit ((["$8012"] : List String).headD "").data ';'⟩ ++ "\n"
         ++ leadingWS (normalize_ghidra_line "    BNE $8012\n") ++ "JMP "
         ++ pyStrip ⟨headSplit ((["$8012"] : List String).headD "").data ';'⟩ ++ "\n"
         ++ mkSkip 5 ++ ":",
       false, 5 + 1, [mkSkip 5])) ∧
     (∀ f : Flags,
       runBlock (expandedBlock (pyUpper "BNE")
           (pyStrip ⟨headSplit ((["$8012"] : List String).headD "").data ';'⟩) (mkSkip 5)) f
         = if branchTaken (pyUpper "BNE") f
             then CtrlExit.target (pyStrip ⟨headSplit ((["$8012"] : List String).headD "").data ';'⟩)
             else CtrlExit.fallthrough')) :=
  ⟨⟨by decide, by decide, by decide, by decide, by decide⟩,
   c1_branch_expansion "    BNE $8012\n" 0xC000 5 "BNE" ["$8012"]
     (by decide) (by decide) (by decide) (by decide) (by decide)⟩

/-- C3 (counterexample): `    INC $2000` has its absolute operand in
the hardware write table, yet the rewriter returns it unchanged — the
raw hardware access survives, because only the four store and four
load mnemonics are rewritten, not every mnemonic. -/
theorem c3_raw_access_survives :
    preprocess_line "    INC $2000\n" 0xC000 0 = ("    INC $2000", false, 0, []) ∧
    (HW_WRITE_WRAPPERS.lookup "$2000").isSome = true ∧
    containsSub "    INC $2000" "$2000" = true := by
  refine ⟨by decide, by decide, by decide⟩

/-- C3 (amended): an instruction line whose mnemonic is a store
(`STA`/`STX`/`STY`/`STZ`) and whose comma-split, lowercased operand is
a key of the write-wrapper table is replaced by a `JSR` to exactly the
wrapper configured for that address, and likewise a load
(`LDA`/`LDX`/`LDY`/`BIT`) with an address in the read-wrapper table;
other mnemonics (read-modify-write, compares, ...) targeting hardware
addresses pass through as raw accesses. -/
theorem c3_hw_rewrite :
    ∀ (line : String) (rv c : ℕ) (p0 : String) (rest : List String),
    pyStrip (normalize_ghidra_line line) ≠ "" →
    startsWithCh (pyStrip (normalize_ghidra_line line)) ';' = false →
    pySplitNone2 (pyStrip (normalize_ghidra_line line)) = p0 :: rest →
    lastCharIs p0.data ':' = false →
    ((pyUpper p0 ∈ STORE_MNEMONICS ∧
        (HW_WRITE_WRAPPERS.lookup
          (pyStrip ⟨headSplit (pyLower (rest.headD "")).data ','⟩)).isSome = true) →
      preprocess_line line rv c =
        (leadingWS (normalize_ghidra_line line) ++ "JSR "
           ++ (HW_WRITE_WRAPPERS.lookup
                 (pyStrip ⟨headSplit (pyLower (rest.headD "")).data ','⟩)).getD ""
           ++ "    ; was: " ++ pyUpper p0 ++ " " ++ rest.headD "",
         false, c, [])) ∧
    ((pyUpper p0 ∈ LOAD_MNEMONICS ∧
        (HW_READ_WRAPPERS.lookup
          (pyStrip ⟨headSplit (pyLower (rest.headD "")).data ','⟩)).isSome = true) →
      preprocess_line line rv c =
        (leadingWS (normalize_ghidra_line line) ++ "JSR "
           ++ (HW_READ_WRAPPERS.lookup
                 (pyStrip ⟨headSplit (pyLower (rest.headD "")).data ','⟩)).getD ""
           ++ "    ; was: " ++ pyUpper p0 ++ " " ++ rest.headD "",
         false, c, [])) := by
  intro line rv c p0 rest h1 h2 h3 h4
  constructor
  · rintro ⟨hS, hI⟩
    have hnb : pyUpper p0 ∉ BRANCH_MNEMONICS := by
      intro hcon
      simp only [STORE_MNEMONICS, List.mem_cons, List.not_mem_nil, or_false] at hS
      rcases hS with h | h | h | h <;> rw [h] at hcon <;> exact absurd hcon (by decide)
    obtain ⟨w, hw⟩ := Option.isSome_iff_exists.mp hI
    rw [List.headD_eq_head?] at hw
    simp [preprocess_line, h1, h2, h3, h4, hnb, hS, hw]
  · rintro ⟨hL, hI⟩
    have hnb : pyUpper p0 ∉ BRANCH_MNEMONICS := by
      intro hcon
      simp only [LOAD_MNEMONICS, List.mem_cons, List.not_mem_nil, or_false] at hL
      rcases hL with h | h | h | h <;> rw [h] at hcon <;> exact absurd hcon (by decide)
    have hns : pyUpper p0 ∉ STORE_MNEMONICS := by
      intro hcon
      simp only [LOAD_MNEMONICS, List.mem_cons, List.not_mem_nil, or_false] at hL
      rcases hL with h | h | h | h <;> rw [h] at hcon <;> exact absurd hcon (by decide)
    obtain ⟨w, hw⟩ := Option.isSome_iff_exists.mp hI
    rw [List.headD_eq_head?] at hw
    simp [preprocess_line, h1, h2, h3, h4, hnb, hns, hL, hw]

/-- Witness for C3: `    STA $2000` becomes `JSR PPU_CTRL_WRITE    ; was: STA $2000`. -/
theorem c3_hw_rewrite_witness :
    (pyStrip (normalize_ghidra_line "    STA $2000\n") ≠ "" ∧
     startsWithCh (pyStrip (normalize_ghidra_line "    STA $2000\n")) ';' = false ∧
     pySplitNone2 (pyStrip (normalize_ghidra_line "    STA $2000\n")) = "STA" :: ["$2000"] ∧
     lastCharIs ("STA" : String).data ':' = false ∧
     pyUpper "STA" ∈ STORE_MNEMONICS ∧
     (HW_WRITE_WRAPPERS.lookup
       (pyStrip ⟨headSplit (pyLower ((["$2000"] : List String).headD "")).data ','⟩)).isSome = true) ∧
    preprocess_line "    STA $2000\n" 0xC000 0 =
      (leadingWS (normalize_ghidra_line "    STA $2000\n") ++ "JSR "
         ++ (HW_WRITE_WRAPPERS.lookup
               (pyStrip ⟨headSplit (pyLower ((["$2000"] : List String).headD "")).data ','⟩)).getD ""
         ++ "    ; was: " ++ pyUpper "STA" ++ " " ++ (["$2000"] : List String).headD "",
       false, 0, []) :=
  ⟨⟨by decide, by decide, by decide, by decide, by decide, by decide⟩,
   (c3_hw_rewrite "    STA $2000\n" 0xC000 0 "STA" ["$2000"]
     (by decide) (by decide) (by decide) (by decide)).1 ⟨by decide, by decide⟩⟩

/-- C10 (counterexample): the pre-processor does not return an
untouched line unchanged — normalization also strips trailing
whitespace (including the line's newline): `"    NOP\n"` comes back as
`"    NOP"`, a change the claim's two listed normalizations
(hex-literal conversion and `<UNSUPPORTED>` stripping) do not make. -/
theorem c10_not_identity_on_trailing_ws :
    preprocess_line "    NOP\n" 0xFFFC 0 = ("    NOP", false, 0, []) ∧
    ("    NOP" : String) ≠ "    NOP\n" := ⟨by decide, by decide⟩

/-- C10 (amended): every line that is not a conditional-branch
instruction, not a store/load with a hardware-wrapper operand, and not
a reset-entry label is returned exactly as its normalization
(hex-literal conversion, `<UNSUPPORTED>` stripping, and trailing
whitespace stripped), with the skip counter unchanged and no label
minted, and is flagged for the oracle precisely when it is an
indirect-jump line or a trigger-pattern `JSR` line. -/
theorem c10_frame :
    ∀ (line : String) (rv c : ℕ),
    isBranchInstrLine (normalize_ghidra_line line) = false →
    isHwInstrLine (normalize_ghidra_line line) = false →
    isResetLabelLine (normalize_ghidra_line line) rv = false →
    preprocess_line line rv c =
      (normalize_ghidra_line line,
       isIndirectJmpLine (normalize_ghidra_line line)
         || isTriggerJsrLine (normalize_ghidra_line line),
       c, []) := by
  intro line rv c hbr hhw hrst
  by_cases hc1 : (decide (pyStrip (normalize_ghidra_line line) = "")
      || startsWithCh (pyStrip (normalize_ghidra_line line)) ';') = true
  · have hlp : lineParts (normalize_ghidra_line line) = none := by
      simp only [lineParts]
      rw [if_pos hc1]
    simp only [preprocess_line]
    rw [if_pos hc1]
    simp [isIndirectJmpLine, isTriggerJsrLine, hlp]
  · rcases hsp : pySplitNone2 (pyStrip (normalize_ghidra_line line)) with _ | ⟨p0, rest⟩
    · have hlp : lineParts (normalize_ghidra_line line) = none := by
        simp only [lineParts]
        rw [if_neg hc1, hsp]
      simp only [preprocess_line]
      rw [if_neg hc1, hsp]
      simp [isIndirectJmpLine, isTriggerJsrLine, hlp]
    · have hlp : lineParts (normalize_ghidra_line line) = some (p0, rest) := by
        simp only [lineParts]
        rw [if_neg hc1, hsp]
      by_cases hlab : lastCharIs p0.data ':' = true
      · -- label line (not the reset label, by hrst)
        rw [isResetLabelLine, hlp] at hrst
        simp only [hlab, Bool.true_and] at hrst
        have hflag : (isIndirectJmpLine (normalize_ghidra_line line)
            || isTriggerJsrLine (normalize_ghidra_line line)) = false := by
          simp [isIndirectJmpLine, isTriggerJsrLine, hlp, hlab]
        simp only [preprocess_line]
        rw [if_neg hc1, hsp]
        simp only [hlab, if_true]
        simp only [Bool.or_eq_false_iff, decide_eq_false_iff_not] at hrst
        obtain ⟨⟨hname1, hname2⟩, hname3⟩ := hrst
        rcases hint : pyIntHex (pyLstripDollar (pyRstripColon p0)) with _ | addr
        · simp [hname1, hname2, hint, hflag]
        · have haddr : ¬ (addr = (rv : ℤ)) := by
            intro hcon
            exact hname3 (by rw [hint, hcon])
          simp [hname1, hname2, hint, haddr, hflag]
      · -- instruction line
        have hlab' : lastCharIs p0.data ':' = false := by
          cases h : lastCharIs p0.data ':'
          · rfl
          · exact absurd h hlab
        rw [isBranchInstrLine, hlp] at hbr
        rw [isHwInstrLine, hlp] at hhw
        simp only [hlab', Bool.not_false, Bool.true_and, decide_eq_false_iff_not] at hbr
        simp only [hlab', Bool.not_false, Bool.true_and, Bool.or_eq_false_iff,
          Bool.and_eq_false_iff, decide_eq_false_iff_not] at hhw
        have hSt : ¬ (pyUpper p0 ∈ STORE_MNEMONICS ∧
            (HW_WRITE_WRAPPERS.lookup
              (pyStrip ⟨headSplit (pyLower (rest.headD "")).data ','⟩)).isSome = true) := by
          rintro ⟨hm, hi⟩
          rcases hhw.1 with h | h
          · exact h hm
          · rw [hi] at h; exact Bool.noConfusion h
        have hLd : ¬ (pyUpper p0 ∈ LOAD_MNEMONICS ∧
            (HW_READ_WRAPPERS.lookup
              (pyStrip ⟨headSplit (pyLower (rest.headD "")).data ','⟩)).isSome = true) := by
          rintro ⟨hm, hi⟩
          rcases hhw.2 with h | h
          · exact h hm
          · rw [hi] at h; exact Bool.noConfusion h
        simp only [preprocess_line]
        rw [if_neg hc1, hsp]
        simp only [hlab', Bool.false_eq_true, if_false, hbr, hSt, hLd, if_neg,
          not_false_eq_true]
        simp only [isIndirectJmpLine, isTriggerJsrLine, hlp, hlab', Bool.not_false,
          Bool.true_and]
        by_cases hj : pyUpper p0 = "JSR"
        · have hjm : (decide (pyUpper p0 = "JMP")) = false := by
            rw [hj]; decide
          simp [hj, hjm]
        · simp [hj]

/-- Witness for C10: an indirect-jump line passes through unchanged,
unflagged counter, flagged for the oracle. -/
theorem c10_frame_witness :
    (isBranchInstrLine (normalize_ghidra_line "    JMP ($00F0)\n") = false ∧
     isHwInstrLine (normalize_ghidra_line "    JMP ($00F0)\n") = false ∧
     isResetLabelLine (normalize_ghidra_line "    JMP ($00F0)\n") 0xFFFC = false) ∧
    preprocess_line "    JMP ($00F0)\n" 0xFFFC 3 =
      (normalize_ghidra_line "    JMP ($00F0)\n",
       isIndirectJmpLine (normalize_ghidra_line "    JMP ($00F0)\n")
         || isTriggerJsrLine (normalize_ghidra_line "    JMP ($00F0)\n"),
       3, []) :=
  ⟨⟨by decide, by decide, by decide⟩,
   c10_frame "    JMP ($00F0)\n" 0xFFFC 3 (by decide) (by decide) (by decide)⟩

/-- Every translation result's block occurs inside the LLM section
text appended to the bank. -/
theorem llm_section_entries_contains :
    ∀ (rs : List TransResult) (r : TransResult), r ∈ rs →
    ∃ pre post, llm_section_entries rs
      = pre ++ ("\n" ++ r.translated ++ "\n") ++ post := by
  intro rs
  induction rs with
  | nil => intro r hr; cases hr
  | cons a as ih =>
    intro r hr
    rcases List.mem_cons.mp hr with rfl | hmem
    · refine ⟨"", (if r.confidence < 1 / 2 then
        "; WARNING: low confidence (" ++ confStr r.confidence ++ ") — manual review needed\n"
       else "") ++ llm_section_entries as, ?_⟩
      simp [llm_section_entries, String.append_assoc]
    · obtain ⟨pre, post, hp⟩ := ih r hmem
      refine ⟨("\n" ++ a.translated ++ "\n" ++
        (if a.confidence < 1 / 2 then
          "; WARNING: low confidence (" ++ confStr a.confidence ++ ") — manual review needed\n"
         else "")) ++ pre, post, ?_⟩
      simp [llm_section_entries, hp, String.append_assoc]

/-- C4 (amended): when the oracle pass is active and a function is
selected for it (it is an interrupt-handler entry, or the bank has any
flagged line — note the code's selection is per bank, not per
function), the emitted bank text is the full deterministic mechanical
rewrite of the bank (including the flagged function's body) followed
by an appended tail, and that tail contains the oracle's translated
block for the function: the oracle result is emitted in addition to
the mechanical rewrite, not instead of it. -/
theorem c4_oracle_appended_not_substituted :
    ∀ (asm : String) (rv nmi irq c : ℕ) (funcs : List (String × String))
      (validateOk : String → Bool) (hasW : Bool) (oracle : String → OracleOutcome)
      (f : String × String),
    f ∈ funcs →
    (pyIntHex f.1 = some (nmi : ℤ) ∨ pyIntHex f.1 = some (irq : ℤ) ∨
      (preprocess_bank asm rv c).2.1 ≠ []) →
    ∃ tail,
      (translate_bank asm rv nmi irq c funcs true validateOk hasW oracle).1
        = (preprocess_bank asm rv c).1 ++ tail ∧
      ∃ pre post, tail = pre
        ++ ("\n" ++ (call_llm_translate_one validateOk hasW f.1 f.2 (oracle f.2)).translated
              ++ "\n") ++ post := by
  intro asm rv nmi irq c funcs validateOk hasW oracle f hf hsel
  have hfil : f ∈ funcs.filter (fun g =>
      decide (pyIntHex g.1 = some (nmi : ℤ) ∨ pyIntHex g.1 = some (irq : ℤ) ∨
        (preprocess_bank asm rv c).2.1 ≠ [])) :=
    List.mem_filter.mpr ⟨hf, by simpa using hsel⟩
  have hne : (funcs.filter (fun g =>
      decide (pyIntHex g.1 = some (nmi : ℤ) ∨ pyIntHex g.1 = some (irq : ℤ) ∨
        (preprocess_bank asm rv c).2.1 ≠ []))).isEmpty = false := by
    rcases hlist : funcs.filter (fun g =>
      decide (pyIntHex g.1 = some (nmi : ℤ) ∨ pyIntHex g.1 = some (irq : ℤ) ∨
        (preprocess_bank asm rv c).2.1 ≠ [])) with _ | ⟨x, xs⟩
    · rw [hlist] at hfil; cases hfil
    · rw [hlist]; rfl
  have hmem : call_llm_translate_one validateOk hasW f.1 f.2 (oracle f.2)
      ∈ call_llm_translate validateOk hasW oracle (funcs.filter (fun g =>
        decide (pyIntHex g.1 = some (nmi : ℤ) ∨ pyIntHex g.1 = some (irq : ℤ) ∨
          (preprocess_bank asm rv c).2.1 ≠ []))) := by
    exact List.mem_map_of_mem _ hfil
  obtain ⟨pre, post, hp⟩ := llm_section_entries_contains _ _ hmem
  refine ⟨llm_section (call_llm_translate validateOk hasW oracle (funcs.filter (fun g =>
        decide (pyIntHex g.1 = some (nmi : ℤ) ∨ pyIntHex g.1 = some (irq : ℤ) ∨
          (preprocess_bank asm rv c).2.1 ≠ [])))), ?_, ?_⟩
  · simp only [translate_bank, hne, if_true, Bool.true_and, if_false]
    rfl
  · refine ⟨"\n; ---- LLM-translated functions ----\n" ++ pre, post, ?_⟩
    simp only [llm_section]
    rw [hp]
    simp only [String.append_assoc]

/-- C4 (counterexample): a bank whose single function `sub_8000`
contains an indirect jump (so that the function is flagged and sent to
the oracle) still has its mechanical rewrite — the label line and the
untouched `JMP ($00F0)` body — emitted at the start of the output,
followed by a nonempty appended oracle section; this contradicts the
claim that the mechanical rewrite of a flagged function is not
emitted. -/
theorem c4_mechanical_rewrite_emitted :
    ∃ tail,
      (translate_bank "sub_8000:\n    JMP ($00F0)\n" 0xC000 0xA000 0xA003 0
          [("0x8000", "sub_8000")] true (fun _ => true) true
          (fun _ => OracleOutcome.ok "sub_8000_65816:\n    RTS")).1
        = ("sub_8000:" ++ "    JMP ($00F0)") ++ tail ∧ tail ≠ "" := by
  refine ⟨llm_section (call_llm_translate (fun _ => true) true
      (fun _ => OracleOutcome.ok "sub_8000_65816:\n    RTS") [("0x8000", "sub_8000")]), ?_, ?_⟩
  · have h1 : preprocess_bank "sub_8000:\n    JMP ($00F0)\n" 0xC000 0
        = ("sub_8000:" ++ "    JMP ($00F0)", [1], 0, []) := by decide
    simp only [translate_bank, h1]
    norm_num
  · intro hcon
    have := congrArg String.data hcon
    simp [llm_section, String.data_append] at this

/-- Witness for C4: the flagged one-function bank, with its selection
hypothesis discharged concretely. -/
theorem c4_oracle_appended_not_substituted_witness :
    ((("0x8000", "sub_8000") ∈ ([("0x8000", "sub_8000")] : List (String × String))) ∧
     (pyIntHex (("0x8000", "sub_8000") : String × String).1 = some ((0xA000 : ℕ) : ℤ) ∨
      pyIntHex (("0x8000", "sub_8000") : String × String).1 = some ((0xA003 : ℕ) : ℤ) ∨
      (preprocess_bank "sub_8000:\n    JMP ($00F0)\n" 0xC000 0).2.1 ≠ [])) ∧
    ∃ tail,
      (translate_bank "sub_8000:\n    JMP ($00F0)\n" 0xC000 0xA000 0xA003 0
          [("0x8000", "sub_8000")] true (fun _ => true) true
          (fun _ => OracleOutcome.ok "sub_8000_65816:\n    BRK")).1
        = (preprocess_bank "sub_8000:\n    JMP ($00F0)\n" 0xC000 0).1 ++ tail ∧
      ∃ pre post, tail = pre
        ++ ("\n" ++ (call_llm_translate_one (fun _ => true) true
              (("0x8000", "sub_8000") : String × String).1
              (("0x8000", "sub_8000") : String × String).2
              ((fun _ => OracleOutcome.ok "sub_8000_65816:\n    BRK")
                (("0x8000", "sub_8000") : String × String).2)).translated
            ++ "\n") ++ post :=
  ⟨⟨by decide, by decide⟩,
   c4_oracle_appended_not_substituted "sub_8000:\n    JMP ($00F0)\n" 0xC000 0xA000 0xA003 0
     [("0x8000", "sub_8000")] (fun _ => true) true
     (fun _ => OracleOutcome.ok "sub_8000_65816:\n    BRK") ("0x8000", "sub_8000")
     (by decide) (by decide)⟩

/-- The integer target is never a member of the string-keyed functions
dict: `jsr_target not in functions` always holds. -/
theorem dictHasIntKey_false (functions : List (String × FuncRec)) (t : ℕ) :
    dictHasIntKey functions t = false := by
  simp [dictHasIntKey, pyIntEqStr]

/-- Dict assignment makes the assigned value the one found at the key. -/
theorem dictInsert_lookup_self : ∀ (l : List (String × FuncRec)) (k : String) (v : FuncRec),
    (dictInsert l k v).lookup k = some v := by
  intro l k v
  induction l with
  | nil => simp [dictInsert, List.lookup]
  | cons kv rest ih =>
    obtain ⟨k', v'⟩ := kv
    by_cases h : k' = k
    · simp [dictInsert, h, List.lookup]
    · simp only [dictInsert, h, if_false]
      rw [List.lookup_cons]
      have : (k == k') = false := by
        rw [beq_eq_false_iff_ne]
        exact fun hc => h hc.symm
      simp [this, ih]

/-- Dict assignment leaves every other key's value unchanged. -/
theorem dictInsert_lookup_ne : ∀ (l : List (String × FuncRec)) (k : String) (v : FuncRec)
    (k2 : String), k2 ≠ k → (dictInsert l k v).lookup k2 = l.lookup k2 := by
  intro l k v k2 hne
  induction l with
  | nil =>
    have : (k2 == k) = false := by rw [beq_eq_false_iff_ne]; exact hne
    simp [dictInsert, List.lookup, this]
  | cons kv rest ih =>
    obtain ⟨k', v'⟩ := kv
    by_cases h : k' = k
    · subst h
      have hb : (k2 == k') = false := by rw [beq_eq_false_iff_ne]; exact hne
      simp [dictInsert, List.lookup, hb]
    · simp only [dictInsert, h, if_false]
      rw [List.lookup_cons, List.lookup_cons]
      cases hb : k2 == k'
      · simp [ih]
      · simp

/-- Keys after a dict assignment are the old keys plus the assigned key. -/
theorem dictInsert_keys_mem : ∀ (l : List (String × FuncRec)) (k : String) (v : FuncRec)
    (x : String), x ∈ (dictInsert l k v).map Prod.fst → x ∈ l.map Prod.fst ∨ x = k := by
  intro l k v
  induction l with
  | nil => intro x hx; simp [dictInsert] at hx; exact Or.inr hx
  | cons kv rest ih =>
    obtain ⟨k', v'⟩ := kv
    intro x hx
    by_cases h : k' = k
    · simp only [dictInsert, h, if_true, List.map_cons, List.mem_cons] at hx
      rcases hx with rfl | hx
      · exact Or.inr rfl
      · exact Or.inl (by simp [hx])
    · simp only [dictInsert, h, if_false, List.map_cons, List.mem_cons] at hx
      rcases hx with rfl | hx
      · exact Or.inl (by simp)
      · rcases ih x hx with hmem | rfl
        · exact Or.inl (by simp [hmem])
        · exact Or.inr rfl

/-- Dict assignment preserves key uniqueness. -/
theorem dictInsert_keys_nodup : ∀ (l : List (String × FuncRec)) (k : String) (v : FuncRec),
    (l.map Prod.fst).Nodup → ((dictInsert l k v).map Prod.fst).Nodup := by
  intro l k v
  induction l with
  | nil => intro _; simp [dictInsert]
  | cons kv rest ih =>
    obtain ⟨k', v'⟩ := kv
    intro hnd
    simp only [List.map_cons, List.nodup_cons] at hnd
    by_cases h : k' = k
    · subst h
      simp only [dictInsert, if_true]
      simp only [List.map_cons, List.nodup_cons]
      exact hnd
    · simp only [dictInsert, h, if_false, List.map_cons, List.nodup_cons]
      refine ⟨?_, ih hnd.2⟩
      intro hcon
      rcases dictInsert_keys_mem rest k v k' hcon with hmem | rfl
      · exact hnd.1 hmem
      · exact h rfl

/-- C5 (counterexample): a second `JSR` (at `$8010`) to a target that
already has a `Function` record with callers `["0x8000"]` does not
merge the new caller — the integer-vs-string membership test never
detects the existing record, so the record is overwritten with the new
singleton caller `["0x8010"]` (the old call site is dropped, so caller
sets do not "only grow") and the target is re-enqueued. -/
theorem c5_caller_not_merged :
    jsrUpdate [("0x8005", ⟨"sub_8005", "0x8005", ["0x8000"], []⟩)] [] 0x8010 (some 0x8005)
      = ([("0x8005", ⟨"sub_8005", "0x8005", ["0x8010"], []⟩)], [0x8005]) ∧
    "0x8000" ∉ (["0x8010"] : List String) := by
  refine ⟨by decide, by decide⟩

/-- C5 (amended): on every `JSR` with a nonzero resolved target —
whether or not a record for the target already exists, because the
membership test compares the integer target against the dict's string
keys and never fires — the traversal assigns a fresh record at the
target's entry-address key, overwriting any existing record so that
the new call site becomes the *only* caller (previous callers are
dropped, not merged), and re-appends the target to the work queue.
Records remain uniquely keyed by entry address (dict assignment
overwrites in place and preserves key uniqueness), and every other
record is left unchanged. -/
theorem c5_duplicate_overwrites :
    ∀ (functions : List (String × FuncRec)) (queue : List ℕ) (addr t : ℕ),
    t ≠ 0 →
    jsrUpdate functions queue addr (some t)
      = (dictInsert functions (hexKey t)
           { name := "sub_" ++ hex4 t, start := hexKey t,
             callers := [hexKey addr], callees := [] }, queue ++ [t]) ∧
    (jsrUpdate functions queue addr (some t)).1.lookup (hexKey t)
      = some { name := "sub_" ++ hex4 t, start := hexKey t,
               callers := [hexKey addr], callees := [] } ∧
    (∀ k, k ≠ hexKey t →
      (jsrUpdate functions queue addr (some t)).1.lookup k = functions.lookup k) ∧
    ((functions.map Prod.fst).Nodup →
      ((jsrUpdate functions queue addr (some t)).1.map Prod.fst).Nodup) := by
  intro functions queue addr t ht
  have hguard : t ≠ 0 ∧ dictHasIntKey functions t = false :=
    ⟨ht, dictHasIntKey_false functions t⟩
  have hju : jsrUpdate functions queue addr (some t)
      = (dictInsert functions (hexKey t)
           { name := "sub_" ++ hex4 t, start := hexKey t,
             callers := [hexKey addr], callees := [] }, queue ++ [t]) := by
    simp only [jsrUpdate]
    rw [if_pos hguard]
  refine ⟨hju, ?_, ?_, ?_⟩
  · rw [hju]; exact dictInsert_lookup_self functions (hexKey t) _
  · intro k hk; rw [hju]; exact dictInsert_lookup_ne functions (hexKey t) _ k hk
  · intro hnd; rw [hju]; exact dictInsert_keys_nodup functions (hexKey t) _ hnd

/-- Witness for C5: a `JSR` at `$9000` to `$8005`, which already has a
record; the record is overwritten with the singleton caller `0x9000`,
other keys are unaffected, and key uniqueness is preserved. -/
theorem c5_duplicate_overwrites_witness :
    ((0x8005 : ℕ) ≠ 0) ∧
    jsrUpdate [("0x8005", ⟨"sub_8005", "0x8005", ["0x8000"], []⟩)] [0x8000] 0x9000
        (some 0x8005)
      = (dictInsert [("0x8005", ⟨"sub_8005", "0x8005", ["0x8000"], []⟩)] (hexKey 0x8005)
           { name := "sub_" ++ hex4 0x8005, start := hexKey 0x8005,
             callers := [hexKey 0x9000], callees := [] }, [0x8000] ++ [0x8005]) ∧
    (jsrUpdate [("0x8005", ⟨"sub_8005", "0x8005", ["0x8000"], []⟩)] [0x8000] 0x9000
        (some 0x8005)).1.lookup (hexKey 0x8005)
      = some { name := "sub_" ++ hex4 0x8005, start := hexKey 0x8005,
               callers := [hexKey 0x9000], callees := [] } ∧
    (("0x9999" : String) ≠ hexKey 0x8005 ∧
     (jsrUpdate [("0x8005", ⟨"sub_8005", "0x8005", ["0x8000"], []⟩)] [0x8000] 0x9000
        (some 0x8005)).1.lookup "0x9999"
       = ([("0x8005", ⟨"sub_8005", "0x8005", ["0x8000"], []⟩)] :
           List (String × FuncRec)).lookup "0x9999") ∧
    ((([("0x8005", ⟨"sub_8005", "0x8005", ["0x8000"], []⟩)] :
        List (String × FuncRec)).map Prod.fst).Nodup ∧
     ((jsrUpdate [("0x8005", ⟨"sub_8005", "0x8005", ["0x8000"], []⟩)] [0x8000] 0x9000
        (some 0x8005)).1.map Prod.fst).Nodup) :=
  ⟨by decide,
   (c5_duplicate_overwrites [("0x8005", ⟨"sub_8005", "0x8005", ["0x8000"], []⟩)]
     [0x8000] 0x9000 0x8005 (by decide)).1,
   (c5_duplicate_overwrites [("0x8005", ⟨"sub_8005", "0x8005", ["0x8000"], []⟩)]
     [0x8000] 0x9000 0x8005 (by decide)).2.1,
   ⟨by decide,
    (c5_duplicate_overwrites [("0x8005", ⟨"sub_8005", "0x8005", ["0x8000"], []⟩)]
      [0x8000] 0x9000 0x8005 (by decide)).2.2.1 "0x9999" (by decide)⟩,
   ⟨by decide,
    (c5_duplicate_overwrites [("0x8005", ⟨"sub_8005", "0x8005", ["0x8000"], []⟩)]
      [0x8000] 0x9000 0x8005 (by decide)).2.2.2 (by decide)⟩⟩
